import Mathlib

/-!
# Verification of the kast-web scan coordinator

A shallow embedding of the scan-coordination core of the kast-web
application (Flask + Celery), together with proofs settling the frozen
claims about its specification.

Conventions of the embedding:
* timestamps are natural numbers counting seconds (`datetime.utcnow()`
  becomes an explicit `now : Time` parameter; `timedelta(days = d)` is
  `d * 86400`);
* database tables are lists of rows in insertion (primary-key) order;
  `query.first()` is `List.find?`;
* the output directory is a list of file names (plus parsed content where
  the code reads the files);
* Python truthiness is made explicit where a branch depends on it.
-/

set_option maxHeartbeats 1600000

namespace KastWeb

/-- Seconds since the epoch. -/
abbrev Time := Nat

/-! ### Executable string helpers

The corresponding core `String` functions are implemented over byte
positions and do not reduce inside the kernel, so the Python string
operations the code performs are modelled over the character list. -/

/-- Whether `pat` is an initial segment of `s`. -/
def has_pref (pat s : List Char) : Bool :=
  match pat, s with
  | [], _ => true
  | _ :: _, [] => false
  | a :: as, b :: bs => a = b && has_pref as bs

/-- Python `s.endswith(t)`. -/
def str_ends_with (s t : String) : Bool :=
  has_pref t.data.reverse s.data.reverse

/-- Python `c in s` for a single character. -/
def str_contains (s : String) (c : Char) : Bool :=
  s.data.any (fun x => x = c)

/-- Fuelled worker for `chars_replace`; the fuel is an upper bound on the
    number of steps and starts at the length of the string, which
    suffices because every step consumes at least one character. -/
def chars_replace_go (pat rep : List Char) : Nat → List Char → List Char
  | 0, s => s
  | _ + 1, [] => []
  | fuel + 1, c :: rest =>
    if has_pref pat (c :: rest) then
      rep ++ chars_replace_go pat rep fuel ((c :: rest).drop pat.length)
    else
      c :: chars_replace_go pat rep fuel rest

/-- Python `s.replace(pat, rep)` for a non-empty pattern: left-to-right,
    non-overlapping. (The code only replaces the literal `_processed`.) -/
def str_replace (s pat rep : String) : String :=
  ⟨chars_replace_go pat.data rep.data s.data.length s.data⟩

theorem bool_false_of_not_true {b : Bool} (h : ¬ b = true) : b = false := by
  cases b
  · rfl
  · exact absurd rfl h

/-! ## Data model (src/app/models.py) -/

/-- A row of the `users` table (class `User`). Only the columns the
    verified operations read are kept. -/
structure User where
  id : Nat
  role : String
  is_active : Bool
deriving Repr, DecidableEq

/-- `User.is_admin` (models.py line 39). -/
def User.is_admin (u : User) : Bool := u.role = "admin"

/-- `User.is_power_user` (models.py line 44). -/
def User.is_power_user (u : User) : Bool := u.role = "power_user"

/-- `User.can_run_active_scans` (models.py line 49):
    `self.role in ('admin', 'power_user')`. -/
def User.can_run_active_scans (u : User) : Bool :=
  u.role = "admin" || u.role = "power_user"

/-- A row of the `scans` table (class `Scan`). -/
structure Scan where
  id : Nat
  user_id : Nat
  target : String
  scan_mode : String
  plugins : Option String
  parallel : Bool
  verbose : Bool
  dry_run : Bool
  status : String
  output_dir : Option String
  config_json : Option String
  error_message : Option String
  started_at : Option Time
  completed_at : Option Time
  logo_id : Option Nat
  config_profile_id : Option Nat
  config_overrides : Option String
deriving Repr, DecidableEq

/-- `Scan.plugin_list` (models.py line 110): comma-split and strip when the
    `plugins` column is truthy (non-NULL and non-empty), else `[]`. -/
def Scan.plugin_list (s : Scan) : List String :=
  match s.plugins with
  | some p => if p = "" then [] else (p.splitOn ",").map String.trim
  | none => []

/-- Python truthiness of the `plugins` column (`if scan.plugins:`). -/
def Scan.plugins_truthy (s : Scan) : Bool :=
  match s.plugins with
  | some p => p ≠ ""
  | none => false

/-- A row of the `scan_results` table (class `ScanResult`): one row per
    (scan, plugin) pair. -/
structure ScanResult where
  scan_id : Nat
  plugin_name : String
  status : String
  findings_count : Nat
  raw_output_path : Option String
  processed_output_path : Option String
  error_message : Option String
  executed_at : Option Time
deriving Repr, DecidableEq

/-- A row of the `scan_shares` table (class `ScanShare`);
    `shared_with_user_id = none` is a public (token) share,
    `expires_at = none` never expires. -/
structure ScanShare where
  id : Nat
  scan_id : Nat
  shared_with_user_id : Option Nat
  permission_level : String
  share_token : Option String
  created_by : Nat
  created_at : Time
  expires_at : Option Time
deriving Repr, DecidableEq

/-- `ScanShare.is_expired` (models.py line 303): `False` when
    `expires_at` is NULL, else `utcnow() > expires_at`. -/
def ScanShare.is_expired (s : ScanShare) (now : Time) : Bool :=
  match s.expires_at with
  | none => false
  | some t => now > t

/-- `ScanShare.is_public` (models.py line 309). -/
def ScanShare.is_public (s : ScanShare) : Bool :=
  s.shared_with_user_id = none

/-- A row of the `scan_config_profiles` table (class `ScanConfigProfile`). -/
structure ScanConfigProfile where
  id : Nat
  name : String
  description : String
  config_yaml : String
  created_by : Nat
  allow_standard_users : Bool
  is_system_default : Bool
deriving Repr, DecidableEq

/-! ## Access Control Engine (src/app/routes/scans.py, check_scan_access) -/

/-- `check_scan_access(scan, required_permission)` (scans.py lines 15-50).
    The current user is `none` when unauthenticated; `shares` is the
    `scan_shares` table in primary-key order, so the SQLAlchemy
    `query.filter_by(...).first()` is `List.find?`.
    Returns the `(has_access, permission_level)` tuple of the source. -/
def check_scan_access (shares : List ScanShare) (now : Time)
    (cu : Option User) (scan : Scan) (required_permission : String) :
    Bool × Option String :=
  match cu with
  | some u =>
    if u.is_admin then (true, some "edit")
    else if scan.user_id = u.id then (true, some "edit")
    else
      match shares.find? (fun s =>
          s.scan_id = scan.id && s.shared_with_user_id = some u.id) with
      | some share =>
        if !(share.is_expired now) then
          if required_permission = "view" then (true, some share.permission_level)
          else if required_permission = "edit" && share.permission_level = "edit" then
            (true, some "edit")
          else (false, none)
        else (false, none)
      | none => (false, none)
  | none => (false, none)

/-- `check_scan_access_simple(scan)` (scans.py line 53): boolean view check. -/
def check_scan_access_simple (shares : List ScanShare) (now : Time)
    (cu : Option User) (scan : Scan) : Bool :=
  (check_scan_access shares now cu scan "view").fst

/-- CPython truthiness of the value returned by `check_scan_access`: it is a
    two-element tuple, and a non-empty tuple is truthy whatever its
    components, so `bool((has_access, level))` is always `True`. -/
def py_truthy_pair (_t : Bool × Option String) : Bool := true

/-- The access gate of `serve_scan_file` (scans.py lines 336-368):
    the route runs `if not check_scan_access(scan): abort(403)`, testing the
    truthiness of the returned tuple itself. Returns `true` when the
    request is refused with 403 by this gate. -/
def serve_scan_file_denied (shares : List ScanShare) (now : Time)
    (cu : Option User) (scan : Scan) : Bool :=
  !(py_truthy_pair (check_scan_access shares now cu scan "view"))

/-- The access gate of `view_file` (scans.py lines 424-448): same
    `if not check_scan_access(scan): abort(403)` pattern. -/
def view_file_denied (shares : List ScanShare) (now : Time)
    (cu : Option User) (scan : Scan) : Bool :=
  !(py_truthy_pair (check_scan_access shares now cu scan "view"))

/-- The access gate of `detail` (scans.py lines 98-110): refuses when
    `check_scan_access_simple` is false. `view_report`, `download_report`
    and `list_files` use the same gate. -/
def detail_denied (shares : List ScanShare) (now : Time)
    (cu : Option User) (scan : Scan) : Bool :=
  !(check_scan_access_simple shares now cu scan)

/-- The access gate of the polling endpoint `get_scan_status`
    (api.py lines 44-61): the route body performs no permission check at
    all (no `login_required`, no `check_scan_access`); any requester that
    names an existing scan id is served. -/
def get_scan_status_denied (_cu : Option User) (_scan : Scan) : Bool := false

/-! ## Sharing operations (src/app/routes/scans.py, phase 4 routes) -/

/-- Replace the first row satisfying `p` by `f` of it (SQLAlchemy mutates
    the single row object returned by `query.first()`). -/
def update_first_share (p : ScanShare → Bool) (f : ScanShare → ScanShare) :
    List ScanShare → List ScanShare
  | [] => []
  | s :: rest => if p s then f s :: rest else s :: update_first_share p f rest

/-- `share_with_user` (scans.py lines 581-653). Gate: `edit` access.
    Form data: `target_user_id` comes from the populated choices (active
    users other than the owner), `level` from the choices
    `view`/`edit`, `days` validated into 0..365 (0 = never expires).
    On an existing share for (scan, user) the row is updated in place,
    else a new row is appended. Returns the new `scan_shares` table. -/
def share_with_user (shares : List ScanShare) (now : Time) (cu : User)
    (scan : Scan) (target_user_id : Nat) (level : String) (days : Nat)
    (new_id : Nat) : List ScanShare :=
  if !(check_scan_access shares now (some cu) scan "edit").fst then shares
  else if !(days ≤ 365 && (level = "view" || level = "edit")) then shares
  else
    let same_pair := fun s : ScanShare =>
      s.scan_id = scan.id && s.shared_with_user_id = some target_user_id
    match shares.find? same_pair with
    | some _ =>
      update_first_share same_pair
        (fun s => { s with
          permission_level := level
          expires_at := if days > 0 then some (now + days * 86400) else none })
        shares
    | none =>
      shares ++ [{
        id := new_id
        scan_id := scan.id
        shared_with_user_id := some target_user_id
        permission_level := level
        share_token := none
        created_by := cu.id
        created_at := now
        expires_at := if days > 0 then some (now + days * 86400) else none }]

/-- `generate_public_link` (scans.py lines 656-716). Gate: `edit` access.
    The form (`GeneratePublicLinkForm`) carries only `expires_in_days`,
    validated into 1..365 — there is no permission-level input. The route
    looks up the first public share row of the scan; if that row exists and
    is not expired it refuses (flash warning, no change); otherwise it
    appends a new public share hard-coded to `permission_level='view'`
    with `expires_at = utcnow() + timedelta(days)`. -/
def generate_public_link (shares : List ScanShare) (now : Time) (cu : User)
    (scan : Scan) (days : Nat) (token : String) (new_id : Nat) :
    List ScanShare :=
  if !(check_scan_access shares now (some cu) scan "edit").fst then shares
  else if !(1 ≤ days && days ≤ 365) then shares
  else
    let fresh : ScanShare := {
      id := new_id
      scan_id := scan.id
      shared_with_user_id := none
      permission_level := "view"
      share_token := some token
      created_by := cu.id
      created_at := now
      expires_at := some (now + days * 86400) }
    match shares.find? (fun s =>
        s.scan_id = scan.id && s.shared_with_user_id = none) with
    | some existing =>
      if !(existing.is_expired now) then shares
      else shares ++ [fresh]
    | none => shares ++ [fresh]

/-! ## Configuration profiles (src/app/routes/config_profiles.py) -/

/-- `create_profile` (config_profiles.py lines 38-88), the state change on
    the `scan_config_profiles` table. `yaml_ok` is the outcome of
    `yaml.safe_load` on the submitted text (a parse error flashes and
    leaves the table unchanged). When the system-default flag is
    requested, `filter_by(is_system_default=True).update(False)` clears
    every current holder before the insert, in the same transaction. -/
def create_profile (profiles : List ScanConfigProfile) (yaml_ok : Bool)
    (new_id : Nat) (name desc yaml : String) (uid : Nat)
    (allow_std is_default : Bool) : List ScanConfigProfile :=
  if !yaml_ok then profiles
  else
    let cleared :=
      if is_default then
        profiles.map (fun p =>
          if p.is_system_default then { p with is_system_default := false } else p)
      else profiles
    cleared ++ [{
      id := new_id
      name := name
      description := desc
      config_yaml := yaml
      created_by := uid
      allow_standard_users := allow_std
      is_system_default := is_default }]

/-- `edit_profile` (config_profiles.py lines 114-163). `get_or_404` on the
    primary key; on YAML error the table is unchanged. When the default
    flag is newly set, every other holder is cleared
    (`filter(id != pid, is_system_default).update(False)`) before the
    row itself is updated, in the same transaction. -/
def edit_profile (profiles : List ScanConfigProfile) (yaml_ok : Bool)
    (pid : Nat) (name desc yaml : String)
    (allow_std is_default : Bool) : List ScanConfigProfile :=
  match profiles.find? (fun p => p.id = pid) with
  | none => profiles
  | some profile =>
    if !yaml_ok then profiles
    else
      let cleared :=
        if is_default && !profile.is_system_default then
          profiles.map (fun p =>
            if p.id ≠ pid && p.is_system_default then
              { p with is_system_default := false }
            else p)
        else profiles
      cleared.map (fun p =>
        if p.id = pid then
          { p with
            name := name
            description := desc
            config_yaml := yaml
            allow_standard_users := allow_std
            is_system_default := is_default }
        else p)

/-! ## Job submission (src/app/routes/main.py, create_scan) -/

/-- The data of `ScanConfigForm` as it reaches the route body; numeric
    select fields use `0` for "system default" / "no profile" exactly as
    the source does, and an absent override string is the empty string
    (the falsy value the route tests with `if form.config_overrides.data`). -/
structure ScanConfigForm where
  target : String
  scan_mode : String
  plugins : List String
  parallel : Bool
  verbose : Bool
  dry_run : Bool
  max_workers : Nat
  logo_id : Nat
  config_profile_id : Nat
  config_overrides : String
deriving Repr, DecidableEq

/-- Outcome of the `create_scan` route body (main.py lines 66-197) after
    `validate_on_submit` succeeded: either one of its flash-and-redirect
    rejections, or a created scan record handed to the Celery task.
    `overrides_warning` records the flash
    "Only Power Users and Admins can use configuration overrides.". -/
inductive CreateScanOutcome where
  | denied_active_mode
  | denied_active_plugins (offending : List String)
  | denied_profile
  | created (scan : Scan) (overrides_warning : Bool)
deriving Repr, DecidableEq

/-- `create_scan` (main.py lines 66-197), the decision logic after form
    validation. `plugin_types` is the mapping built from
    `get_available_plugins()` (`plugin_types.get(p)` is `none` for an
    unknown plugin, and `none ≠ some "active"`). `profiles` is the
    `scan_config_profiles` table. -/
def create_scan (cu : User) (form : ScanConfigForm)
    (plugin_types : String → Option String)
    (profiles : List ScanConfigProfile) (new_scan_id : Nat) (now : Time) :
    CreateScanOutcome :=
  if form.scan_mode = "active" && !cu.can_run_active_scans then
    .denied_active_mode
  else
    let active_selected :=
      form.plugins.filter (fun p => plugin_types p = some "active")
    if form.scan_mode = "passive" && !form.plugins.isEmpty
        && !active_selected.isEmpty then
      .denied_active_plugins active_selected
    else
      let logo_id := if form.logo_id ≠ 0 then some form.logo_id else none
      let config_profile_id :=
        if form.config_profile_id ≠ 0 then some form.config_profile_id else none
      let elevated := cu.is_power_user || cu.is_admin
      let profile_denied : Bool :=
        match config_profile_id with
        | some pid =>
          if elevated then false
          else
            match profiles.find? (fun p => p.id = pid) with
            | some p => !p.allow_standard_users
            | none => false
        | none => false
      if profile_denied then .denied_profile
      else
        let overrides_truthy := form.config_overrides ≠ ""
        let config_overrides :=
          if overrides_truthy && elevated then some form.config_overrides.trim
          else none
        let warned := overrides_truthy && !elevated
        .created {
          id := new_scan_id
          user_id := cu.id
          target := form.target
          scan_mode := form.scan_mode
          plugins := if form.plugins.isEmpty then none
                     else some (String.intercalate "," form.plugins)
          parallel := form.parallel
          verbose := form.verbose
          dry_run := form.dry_run
          status := "pending"
          output_dir := none
          config_json := some "config_json"
          error_message := none
          started_at := some now
          completed_at := none
          logo_id := logo_id
          config_profile_id := config_profile_id
          config_overrides := config_overrides } warned

/-! ## Worker execution (src/app/tasks.py, execute_scan_task) -/

/-- How the external process run ends, as observed by the task:
    `process.communicate(timeout=3600)` returns stdout/stderr and a return
    code, raises `subprocess.TimeoutExpired` on the wall-clock bound, or
    some other exception escapes the body. -/
inductive RunOutcome where
  | exited (returncode : Int) (stdout stderr : String)
  | timed_out
  | raised (msg : String)
deriving Repr, DecidableEq

/-- What `execute_scan_task` leaves behind for one scan. `parser_runs`
    counts the calls to `parse_scan_results` the task itself makes on
    this control path. -/
structure TaskResult where
  scan : Scan
  parser_runs : Nat
  succeeded : Bool
deriving Repr, DecidableEq

/-- `execute_scan_task` (tasks.py lines 15-353), the scan-record updates
    and `parse_scan_results` invocations along each control path.
    The task first sets `status='running'` and the output directory
    (lines 84-88); then, per outcome of the subprocess:
    exit code 0 → `completed`, one `parse_scan_results` call (line 306);
    nonzero exit → `failed` with stderr, one call (line 323);
    `TimeoutExpired` (lines 331-336) and any other exception
    (lines 338-344) → `failed`, and the handler returns without any
    `parse_scan_results` call. -/
def execute_scan_task (scan0 : Scan) (out_dir : String)
    (outcome : RunOutcome) (now : Time) : TaskResult :=
  let scan1 := { scan0 with
    status := "running", output_dir := some out_dir }
  match outcome with
  | .exited code _stdout stderr =>
    let scan2 := { scan1 with completed_at := some now }
    if code = 0 then
      { scan := { scan2 with status := "completed" }
        parser_runs := 1
        succeeded := true }
    else
      { scan := { scan2 with
          status := "failed"
          error_message :=
            some (if stderr ≠ "" then stderr
                  else "Scan failed with no error message") }
        parser_runs := 1
        succeeded := false }
  | .timed_out =>
    { scan := { scan1 with
        status := "failed"
        error_message := some "Scan timed out after 1 hour"
        completed_at := some now }
      parser_runs := 0
      succeeded := false }
  | .raised msg =>
    { scan := { scan1 with
        status := "failed"
        error_message := some msg
        completed_at := some now }
      parser_runs := 0
      succeeded := false }

/-! ## Status read path (src/app/routes/api.py get_scan_status and
    src/app/routes/scans.py detail) -/

/-- One entry of the per-plugin status list both read paths build. -/
structure PluginStatus where
  plugin_name : String
  status : String
  findings_count : Nat
  executed_at : Option Time
deriving Repr, DecidableEq

/-- Classification of one file name during plugin discovery
    (api.py lines 106-125 / scans.py lines 127-140, identical code):
    `kast_report.json` is skipped; `*_processed.json` yields the stem
    before `_processed.json`; a plain `*.json` with no underscore before
    `.json` yields its stem; anything else is skipped. -/
def classify_json (filename : String) : Option String :=
  if filename = "kast_report.json" then none
  else if str_ends_with filename "_processed.json" then
    some (filename.dropRight 15)
  else if str_ends_with filename ".json"
      && !(str_contains (filename.dropRight 5) '_') then
    some (filename.dropRight 5)
  else none

/-- Plugin names discovered from the output directory
    (`for json_file in output_dir.glob("*.json")` feeding a set). The
    Python code sorts the set; the claims are order-insensitive, so the
    set is modelled as a duplicate-free list. -/
def discovered_plugins (files : List String) : List String :=
  ((files.filter (fun f => str_ends_with f ".json")).filterMap classify_json).dedup

/-- Candidate plugin names of the status read paths (api.py lines 96-131 /
    scans.py lines 119-145, identical): the explicit `plugin_list` when
    the scan selected plugins, else discovery over the output directory;
    `dir = none` models a missing/absent output directory. -/
def candidate_plugins (scan : Scan) (dir : Option (List String)) :
    List String :=
  if scan.plugins_truthy then scan.plugin_list
  else
    match dir with
    | some files => discovered_plugins files
    | none => []

/-- The per-scan results dict `{result.plugin_name: result for ...}`
    built by both read paths from `scan.results.all()`: a Python dict
    comprehension, so on duplicate plugin names the last row wins. -/
def db_results_lookup (db : List ScanResult) (sid : Nat) (plugin : String) :
    Option ScanResult :=
  ((db.filter (fun r => r.scan_id = sid)).reverse).find?
    (fun r => r.plugin_name = plugin)

/-- Per-plugin status derivation of `get_scan_status`
    (api.py lines 135-174): processed artifact on disk → `completed`,
    with findings count and timestamp from the scan's results dict when
    the plugin has a row; else raw artifact → `in_progress`; else
    `pending` (also when there is no output directory). -/
def api_plugin_status (dir : Option (List String)) (db : List ScanResult)
    (sid : Nat) (plugin : String) : PluginStatus :=
  let base : PluginStatus :=
    { plugin_name := plugin, status := "pending"
      findings_count := 0, executed_at := none }
  match dir with
  | none => base
  | some files =>
    if (plugin ++ "_processed.json") ∈ files then
      match db_results_lookup db sid plugin with
      | some row =>
        { base with
            status := "completed"
            findings_count := row.findings_count
            executed_at := row.executed_at }
      | none => { base with status := "completed" }
    else if (plugin ++ ".json") ∈ files then
      { base with status := "in_progress" }
    else base

/-- The `results` list of the `get_scan_status` response
    (api.py lines 96-196): every candidate plugin is reported; the code
    applies no plugin-type filter. -/
def get_scan_status_results (scan : Scan) (dir : Option (List String))
    (db : List ScanResult) : List PluginStatus :=
  (candidate_plugins scan dir).map (api_plugin_status dir db scan.id)

/-- Per-plugin status derivation of `detail` (scans.py lines 161-185),
    the same file-existence logic as the api route. -/
def detail_plugin_status (dir : Option (List String)) (db : List ScanResult)
    (sid : Nat) (plugin : String) : PluginStatus :=
  let base : PluginStatus :=
    { plugin_name := plugin, status := "pending"
      findings_count := 0, executed_at := none }
  match dir with
  | none => base
  | some files =>
    if (plugin ++ "_processed.json") ∈ files then
      match db_results_lookup db sid plugin with
      | some row =>
        { base with
            status := "completed"
            findings_count := row.findings_count
            executed_at := row.executed_at }
      | none => { base with status := "completed" }
    else if (plugin ++ ".json") ∈ files then
      { base with status := "in_progress" }
    else base

/-- The `results` list of the `detail` view (scans.py lines 147-185): the
    same candidates as the api route, but plugins whose type (looked up
    with default `passive`) is `active` are skipped when
    `scan.scan_mode == 'passive'` (lines 153-159). -/
def detail_plugin_results (scan : Scan) (dir : Option (List String))
    (db : List ScanResult) (plugin_types : String → Option String) :
    List PluginStatus :=
  ((candidate_plugins scan dir).filter (fun p =>
      !(scan.scan_mode = "passive" && ((plugin_types p).getD "passive") = "active"))
    ).map (detail_plugin_status dir db scan.id)

/-! ## Result Parser (src/app/tasks.py parse_scan_results and
    src/app/utils.py parse_scan_results) -/

/-- A JSON value as produced by `json.load`. -/
inductive JVal where
  | null
  | bool (b : Bool)
  | num (n : Int)
  | str (s : String)
  | arr (elems : List JVal)
  | obj (fields : List (String × JVal))

/-- `data.get(key)` / `key in data` on a parsed JSON dict (keys of a JSON
    object are unique; a duplicate would already have been collapsed by
    `json.load`, so first match is the binding). Non-dict values have no
    `.get` and no keys. -/
def jget (v : JVal) (key : String) : Option JVal :=
  match v with
  | .obj fields => (fields.find? (fun kv => kv.fst = key)).map (·.snd)
  | _ => none

/-- Python `len()` on a JSON-derived value: defined for strings, lists
    and dicts; raises `TypeError` (here `none`) on numbers, booleans and
    `None`. -/
def py_len (v : JVal) : Option Nat :=
  match v with
  | .str s => some s.length
  | .arr xs => some xs.length
  | .obj kvs => some kvs.length
  | _ => none

/-- Python `str()` on a JSON-derived value. The exact rendering of
    containers does not matter to any claim; only that it is a fixed
    function of the value. -/
def py_str : JVal → String
  | .null => "None"
  | .bool true => "True"
  | .bool false => "False"
  | .num n => toString n
  | .str s => s
  | .arr _ => "<list>"
  | .obj _ => "<dict>"

/-- The findings count of one processed artifact (tasks.py lines 381-388
    and utils.py lines 213-220, identical): `findings` defaults to `{}`;
    a dict counts `len(findings.get('results', []))` (a `len` that raises
    makes the per-file handler skip the file, hence `none`); a list
    counts its length; any other shape counts zero without calling
    `len`. -/
def findings_count_of (data : JVal) : Option Nat :=
  match (jget data "findings").getD (.obj []) with
  | .obj kvs =>
    py_len ((((kvs.find? (fun kv => kv.fst = "results"))).map (·.snd)).getD (.arr []))
  | .arr xs => some xs.length
  | _ => some 0

/-- `extract_plugin_error` (tasks.py lines 431-484): only for
    disposition `fail`; probes `error`, `message`, `error_message`, then —
    if a `findings` key exists — `findings.error` / `findings.message`
    (and nothing further), then `details`, then `reason`; the first
    present key wins; the result is truncated to 1000 characters. -/
def extract_plugin_error (data : JVal) (disposition : String) :
    Option String :=
  if disposition ≠ "fail" then none
  else
    let msg : Option String :=
      match jget data "error" with
      | some v => some (py_str v)
      | none =>
        match jget data "message" with
        | some v => some (py_str v)
        | none =>
          match jget data "error_message" with
          | some v => some (py_str v)
          | none =>
            match jget data "findings" with
            | some f =>
              (match jget f "error" with
               | some v => some (py_str v)
               | none => (jget f "message").map py_str)
            | none =>
              match jget data "details" with
              | some v => some (py_str v)
              | none => (jget data "reason").map py_str
    msg.map (fun m => if m.length > 1000 then m.take 997 ++ "..." else m)

/-- One file of the output directory as the parser sees it: its name, its
    modification time, and its parsed JSON content (`none` when opening
    or `json.load` raised, which the per-file handler logs and skips). -/
structure PFile where
  name : String
  mtime : Time
  data : Option JVal

/-- The row values the tasks.py parser computes for one processed
    artifact (tasks.py lines 373-394), or `none` when the per-file
    `except` skips the file: unreadable/invalid JSON, a non-dict
    top-level value (`.get` raises `AttributeError`), or a `len()` that
    raises inside the findings count. `plugin_name` falls back to
    `json_file.stem.replace('_processed', '')`; string coercion at the
    database boundary is `py_str`. -/
def row_of_file (sid : Nat) (f : PFile) : Option ScanResult :=
  match f.data with
  | some data =>
    match data with
    | .obj _ =>
      let stem_name := str_replace (f.name.dropRight 5) "_processed" ""
      let plugin_name :=
        match jget data "plugin_name" with
        | some (.str s) => s
        | some v => py_str v
        | none => stem_name
      let disposition :=
        match jget data "disposition" with
        | some (.str s) => s
        | some v => py_str v
        | none => "unknown"
      match findings_count_of data with
      | none => none
      | some cnt =>
        some {
          scan_id := sid
          plugin_name := plugin_name
          status := disposition
          findings_count := cnt
          raw_output_path := none
          processed_output_path := some f.name
          error_message := extract_plugin_error data disposition
          executed_at := some f.mtime }
    | _ => none
  | none => none

/-- Same for the utils.py copy of the parser (utils.py lines 206-247): it
    computes the same values but never an error message (neither the
    insert nor the update touches `error_message`). -/
def utils_row_of_file (sid : Nat) (f : PFile) : Option ScanResult :=
  match f.data with
  | some data =>
    match data with
    | .obj _ =>
      let stem_name := str_replace (f.name.dropRight 5) "_processed" ""
      let plugin_name :=
        match jget data "plugin_name" with
        | some (.str s) => s
        | some v => py_str v
        | none => stem_name
      let disposition :=
        match jget data "disposition" with
        | some (.str s) => s
        | some v => py_str v
        | none => "unknown"
      match findings_count_of data with
      | none => none
      | some cnt =>
        some {
          scan_id := sid
          plugin_name := plugin_name
          status := disposition
          findings_count := cnt
          raw_output_path := none
          processed_output_path := some f.name
          error_message := none
          executed_at := some f.mtime }
    | _ => none
  | none => none

/-- The in-place update of an existing row by the tasks.py parser
    (tasks.py lines 402-408): status, findings count, processed path,
    timestamp and error message are overwritten from the freshly computed
    values `n`; the key columns and `raw_output_path` are untouched. -/
def tasks_update (r n : ScanResult) : ScanResult :=
  { r with
    status := n.status
    findings_count := n.findings_count
    processed_output_path := n.processed_output_path
    executed_at := n.executed_at
    error_message := n.error_message }

/-- The in-place update of the utils.py parser (utils.py lines 231-236):
    the same fields except `error_message`, which it never writes. -/
def utils_update (r n : ScanResult) : ScanResult :=
  { r with
    status := n.status
    findings_count := n.findings_count
    processed_output_path := n.processed_output_path
    executed_at := n.executed_at }

/-- Replace the first row matching the key of `n` by `upd` of it
    (SQLAlchemy mutates the row object returned by `query.first()`). -/
def update_first_result (upd : ScanResult → ScanResult → ScanResult)
    (n : ScanResult) : List ScanResult → List ScanResult
  | [] => []
  | r :: rest =>
    if r.scan_id = n.scan_id && r.plugin_name = n.plugin_name then
      upd r n :: rest
    else r :: update_first_result upd n rest

/-- The upsert step shared by both parser copies: look up the first
    existing row keyed by (scan_id, plugin_name); update it in place if
    present, else append a new row. -/
def upsert (upd : ScanResult → ScanResult → ScanResult)
    (db : List ScanResult) (n : ScanResult) : List ScanResult :=
  match db.find? (fun r =>
      r.scan_id = n.scan_id && r.plugin_name = n.plugin_name) with
  | some _ => update_first_result upd n db
  | none => db ++ [n]

/-- The loop of either parser over `output_path.glob("*_processed.json")`:
    compute the row values for each matching file (skipping files whose
    per-file handler raised) and upsert. -/
def parser_fold (rowf : PFile → Option ScanResult)
    (upd : ScanResult → ScanResult → ScanResult)
    (db : List ScanResult) (files : List PFile) : List ScanResult :=
  (files.filter (fun f => str_ends_with f.name "_processed.json")).foldl
    (fun acc f =>
      match rowf f with
      | some n => upsert upd acc n
      | none => acc) db

/-- `parse_scan_results` (tasks.py lines 356-428) over a directory
    snapshot. -/
def parse_scan_results (sid : Nat) (db : List ScanResult)
    (files : List PFile) : List ScanResult :=
  parser_fold (row_of_file sid) tasks_update db files

/-- `parse_scan_results` (utils.py lines 188-255) over a directory
    snapshot. -/
def utils_parse_scan_results (sid : Nat) (db : List ScanResult)
    (files : List PFile) : List ScanResult :=
  parser_fold (utils_row_of_file sid) utils_update db files

/-- The (scan, plugin) key of a row. -/
def rkey (r : ScanResult) : Nat × String := (r.scan_id, r.plugin_name)

/-- Number of rows of the table holding a given key. -/
def key_count (db : List ScanResult) (k : Nat × String) : Nat :=
  (db.filter (fun r => rkey r = k)).length

/-- The first row of the table holding a given key (what
    `query.filter_by(scan_id, plugin_name).first()` returns). -/
def first_row (db : List ScanResult) (k : Nat × String) :
    Option ScanResult :=
  db.find? (fun r => r.scan_id = k.1 && r.plugin_name = k.2)

/-! ## Concrete fixtures used by witnesses and counterexamples -/

/-- A finished passive scan owned by user 1, with no explicit plugin
    selection. -/
def scanA : Scan := {
  id := 7
  user_id := 1
  target := "example.com"
  scan_mode := "passive"
  plugins := none
  parallel := false
  verbose := false
  dry_run := false
  status := "completed"
  output_dir := some "/data/out"
  config_json := none
  error_message := none
  started_at := some 100
  completed_at := some 200
  logo_id := none
  config_profile_id := none
  config_overrides := none }

/-- The owner of `scanA`. -/
def alice : User := { id := 1, role := "user", is_active := true }

/-- A standard user who is neither admin nor the owner of `scanA`. -/
def mallory : User := { id := 2, role := "user", is_active := true }

/-- A share of `scanA` with `mallory` that expired at time 500. -/
def expiredShare : ScanShare := {
  id := 1
  scan_id := 7
  shared_with_user_id := some 2
  permission_level := "edit"
  share_token := none
  created_by := 1
  created_at := 100
  expires_at := some 500 }

/-- An empty plugin-type table (`plugin_types.get(p)` is always `None`). -/
def no_plugin_types : String → Option String := fun _ => none

/-- A plugin-type table in which `nuclei` is an active-type plugin. -/
def nuclei_active_types : String → Option String :=
  fun p => if p = "nuclei" then some "active" else none

/-- A profile standard users are allowed to use. -/
def profileStd : ScanConfigProfile := {
  id := 3
  name := "std"
  description := ""
  config_yaml := "rate: 1"
  created_by := 1
  allow_standard_users := true
  is_system_default := false }

/-- A submission by a standard user carrying a non-empty override string
    together with a valid, standard-user-allowed profile. -/
def formOv : ScanConfigForm := {
  target := "example.com"
  scan_mode := "passive"
  plugins := []
  parallel := false
  verbose := false
  dry_run := false
  max_workers := 5
  logo_id := 0
  config_profile_id := 3
  config_overrides := "http_timeout=5" }

/-! ## C1 — read operations must require `view` -/

/-- **C1.** The claim: every read operation over a scan (detail view,
    file listing, report download, per-file serving, status query)
    refuses an actor who is not admin, not owner and holds no non-expired
    share. The code violates this: `serve_scan_file` and `view_file`
    guard with `if not check_scan_access(scan): abort(403)`, but
    `check_scan_access` returns a two-element tuple, which is truthy
    whatever its components, so the `abort(403)` is unreachable; and the
    polling endpoint `get_scan_status` performs no access check at all.
    Here `mallory` (no access: the engine resolves `(False, None)`) is
    nevertheless not refused by those three gates, while the sibling
    gate of `detail` — which unpacks the tuple — does refuse. -/
theorem C1_read_access_not_enforced :
    check_scan_access [] 1000 (some mallory) scanA "view" = (false, none)
    ∧ serve_scan_file_denied [] 1000 (some mallory) scanA = false
    ∧ view_file_denied [] 1000 (some mallory) scanA = false
    ∧ get_scan_status_denied (some mallory) scanA = false
    ∧ detail_denied [] 1000 (some mallory) scanA = true := by
  decide

/-! ## C3 — Result Parser invoked exactly once on terminal transition -/

/-- **C3 (counterexample).** The claim says the Result Parser is invoked
    exactly once on every terminal transition, *including failure by
    wall-clock timeout*. In the code the `subprocess.TimeoutExpired`
    handler (tasks.py lines 331-336) marks the scan `failed` and returns
    without calling `parse_scan_results`: at a timeout the terminal
    transition happens with zero parser invocations. -/
theorem C3_counterexample :
    (execute_scan_task scanA "/data/out" .timed_out 2000).scan.status = "failed"
    ∧ ¬ (execute_scan_task scanA "/data/out" .timed_out 2000).parser_runs = 1 := by
  decide

/-- **C3 (amended).** On every execution reaching a terminal state, the
    Result Parser is invoked exactly once when the external process
    exited normally (zero or nonzero exit code), and zero times when the
    terminal transition is caused by the wall-clock timeout or by an
    internal exception. -/
theorem C3_amended (scan0 : Scan) (out_dir : String)
    (outcome : RunOutcome) (now : Time) :
    ((execute_scan_task scan0 out_dir outcome now).scan.status = "failed"
      ∨ (execute_scan_task scan0 out_dir outcome now).scan.status = "completed")
    ∧ (execute_scan_task scan0 out_dir outcome now).parser_runs
        = (match outcome with
           | .exited _ _ _ => 1
           | .timed_out => 0
           | .raised _ => 0) := by
  cases outcome with
  | exited code stdout stderr =>
    by_cases h : code = 0 <;> simp [execute_scan_task, h]
  | timed_out => simp [execute_scan_task]
  | raised msg => simp [execute_scan_task]

/-! ## C4 — passive jobs never surface active units -/

/-- **C4.** The claim: the status read path never returns an active-type
    unit for a passive job when units are discovered from the output
    directory. The `detail` view implements exactly this exclusion
    (scans.py lines 147-159), but its sibling `get_scan_status`
    (api.py lines 96-174) applies no plugin-type filter: with a passive
    scan, no plugin selection, and a `nuclei_processed.json` artifact on
    disk for the active-type plugin `nuclei`, the api status list
    contains the active unit while the detail view excludes it. -/
theorem C4_api_status_returns_active_unit :
    get_scan_status_results scanA (some ["nuclei_processed.json"]) []
      = [{ plugin_name := "nuclei", status := "completed"
           findings_count := 0, executed_at := none }]
    ∧ detail_plugin_results scanA (some ["nuclei_processed.json"]) []
        nuclei_active_types = [] :=
  ⟨rfl, rfl⟩

/-! ## C8 — per-unit status derivation priority -/

/-- Spec §4.2 per-unit status derivation, written from the spec text:
    a processed artifact on disk makes the unit `completed` with finding
    count and timestamp from the matching Subjob Result row if present
    (else zero/absent); else a raw artifact makes it `in_progress`; else
    it is `pending`. -/
def spec_unit_status (plugin : String)
    (processed_exists raw_exists : Bool) (row : Option ScanResult) :
    PluginStatus :=
  if processed_exists then
    { plugin_name := plugin
      status := "completed"
      findings_count := match row with | some r => r.findings_count | none => 0
      executed_at := match row with | some r => r.executed_at | none => none }
  else if raw_exists then
    { plugin_name := plugin, status := "in_progress"
      findings_count := 0, executed_at := none }
  else
    { plugin_name := plugin, status := "pending"
      findings_count := 0, executed_at := none }

/-- **C8.** Both read paths derive each candidate unit's status by the
    spec's priority rule: processed artifact → `completed` with count and
    timestamp from the matching row (zero/absent without a row); else raw
    artifact → `in_progress`; else `pending`. -/
theorem C8_status_priority (files : List String) (db : List ScanResult)
    (sid : Nat) (u : String) :
    api_plugin_status (some files) db sid u
      = spec_unit_status u (decide ((u ++ "_processed.json") ∈ files))
          (decide ((u ++ ".json") ∈ files)) (db_results_lookup db sid u)
    ∧ detail_plugin_status (some files) db sid u
      = spec_unit_status u (decide ((u ++ "_processed.json") ∈ files))
          (decide ((u ++ ".json") ∈ files)) (db_results_lookup db sid u) := by
  constructor <;>
  · by_cases h1 : (u ++ "_processed.json") ∈ files <;>
      by_cases h2 : (u ++ ".json") ∈ files <;>
        cases hrow : db_results_lookup db sid u <;>
          simp [api_plugin_status, detail_plugin_status, spec_unit_status,
                h1, h2, hrow]

/-! ## C5 — an expired share confers no access -/

/-- **C5.** For an authenticated actor who is neither admin nor owner,
    when the only share row for the (scan, actor) pair carries an
    expiration timestamp in the past, `check_scan_access` resolves
    `(False, None)` — no access at all, for any required permission, and
    in particular never the grant's declared level and never a
    downgraded `view`. -/
theorem C5_expired_share_confers_no_access
    (shares : List ScanShare) (now : Time) (u : User) (scan : Scan)
    (share : ScanShare) (t : Time) (req : String)
    (hadmin : u.is_admin = false)
    (howner : ¬ scan.user_id = u.id)
    (honly : ∀ s ∈ shares,
      (s.scan_id = scan.id ∧ s.shared_with_user_id = some u.id) → s = share)
    (hexp : share.expires_at = some t) (hpast : t < now) :
    check_scan_access shares now (some u) scan req = (false, none) := by
  have hexpired : share.is_expired now = true := by
    simp only [ScanShare.is_expired, hexp]
    exact decide_eq_true hpast
  show (if u.is_admin then ((true : Bool), some "edit") else _) = _
  rw [if_neg (by simp [hadmin]), if_neg howner]
  cases hf : shares.find? (fun s =>
      s.scan_id = scan.id && s.shared_with_user_id = some u.id) with
  | none => rfl
  | some s =>
    have hmem := List.mem_of_find?_eq_some hf
    have hpred := List.find?_some hf
    simp only [Bool.and_eq_true, decide_eq_true_eq] at hpred
    have hs : s = share := honly s hmem hpred
    subst hs
    simp [hexpired]

/-- Witness for C5: the engine resolves no access for `mallory` on
    `scanA` at time 1000 given only the share that expired at 500. -/
theorem C5_witness :
    check_scan_access [expiredShare] 1000 (some mallory) scanA "view"
      = (false, none) :=
  C5_expired_share_confers_no_access [expiredShare] 1000 mallory scanA
    expiredShare 500 "view" (by decide) (by decide)
    (by intro s hs _; simpa using hs) (by decide) (by decide)

/-! ## C2 — overrides from non-elevated actors -/

/-- **C2 (counterexample).** The claim: a submission by a non-elevated
    actor that includes a non-empty override string is rejected outright
    with a permission error, even when a valid profile is supplied, and
    no scan proceeds carrying (or silently dropping) the overrides. In
    the code (main.py lines 128-134) the override string of a
    non-elevated actor only flashes a warning and is dropped
    (`config_overrides` stays `None`): at this concrete submission by
    standard user `mallory`, with a non-empty override string and a valid
    standard-user-allowed profile, the route creates the scan. -/
theorem C2_counterexample :
    create_scan mallory formOv no_plugin_types [profileStd] 9 3000
      = .created {
          id := 9
          user_id := 2
          target := "example.com"
          scan_mode := "passive"
          plugins := none
          parallel := false
          verbose := false
          dry_run := false
          status := "pending"
          output_dir := none
          config_json := some "config_json"
          error_message := none
          started_at := some 3000
          completed_at := none
          logo_id := none
          config_profile_id := some 3
          config_overrides := none } true := by
  rfl

/-- `true` exactly when the `create_scan` outcome created a scan. -/
def is_created_outcome : CreateScanOutcome → Bool
  | .created _ _ => true
  | _ => false

/-- **C2 (amended).** A non-empty override string from a non-elevated
    actor never causes a rejection and is never stored: whether the
    submission is rejected does not depend on the override string at all,
    and when a scan is created by a non-elevated actor it carries no
    overrides, with the warning flash recording a non-empty string. -/
theorem C2_overrides_dropped_for_non_elevated
    (cu : User) (form : ScanConfigForm)
    (plugin_types : String → Option String)
    (profiles : List ScanConfigProfile) (nid : Nat) (now : Time)
    (helev : (cu.is_power_user || cu.is_admin) = false) :
    (∀ s w, create_scan cu form plugin_types profiles nid now = .created s w →
        s.config_overrides = none ∧ w = (form.config_overrides ≠ ""))
    ∧ is_created_outcome (create_scan cu form plugin_types profiles nid now)
      = is_created_outcome (create_scan cu
          { form with config_overrides := "" } plugin_types profiles nid now) := by
  obtain ⟨tg, sm, pl, pa, vb, dr, mw, lg, cp, ov⟩ := form
  constructor
  · intro s w hres
    simp only [create_scan, helev, Bool.and_false, Bool.not_false, Bool.and_true,
      Bool.false_eq_true, if_false] at hres
    split_ifs at hres
    all_goals
      first
      | exact CreateScanOutcome.noConfusion hres
      | (rw [CreateScanOutcome.created.injEq] at hres
         obtain ⟨hs, hw⟩ := hres
         subst hs
         subst hw
         exact ⟨rfl, by simp⟩)
  · simp only [create_scan, helev, Bool.and_false, Bool.not_false, Bool.and_true,
      Bool.false_eq_true, if_false]
    split_ifs <;> simp [is_created_outcome]

/-- Witness for the amended C2 at the concrete submission of the
    counterexample. -/
theorem C2_amended_witness :
    (∀ s w, create_scan mallory formOv no_plugin_types [profileStd] 9 3000
        = .created s w →
        s.config_overrides = none ∧ w = (formOv.config_overrides ≠ ""))
    ∧ is_created_outcome
        (create_scan mallory formOv no_plugin_types [profileStd] 9 3000)
      = is_created_outcome (create_scan mallory
          { formOv with config_overrides := "" } no_plugin_types
          [profileStd] 9 3000) :=
  C2_overrides_dropped_for_non_elevated mallory formOv no_plugin_types
    [profileStd] 9 3000 (by decide)

/-! ## C6 — public grants are view-only, enforced at creation -/

/-- Membership in `update_first_share`: every row of the updated table
    either was already present or is the image under `f` of a row
    matching the predicate. -/
theorem mem_update_first_share {p : ScanShare → Bool}
    {f : ScanShare → ScanShare} {shares : List ScanShare} {s : ScanShare}
    (hs : s ∈ update_first_share p f shares) :
    s ∈ shares ∨ ∃ s0 ∈ shares, p s0 = true ∧ s = f s0 := by
  induction shares with
  | nil => simp [update_first_share] at hs
  | cons a rest ih =>
    by_cases hp : p a = true
    · rw [update_first_share, if_pos hp] at hs
      rcases List.mem_cons.mp hs with h | h
      · exact Or.inr ⟨a, List.mem_cons_self a rest, hp, h⟩
      · exact Or.inl (List.mem_cons_of_mem a h)
    · rw [update_first_share, if_neg hp] at hs
      rcases List.mem_cons.mp hs with h | h
      · exact Or.inl (by simp [h])
      · rcases ih h with h2 | ⟨s0, hs0, hps0, hfs0⟩
        · exact Or.inl (List.mem_cons_of_mem a h2)
        · exact Or.inr ⟨s0, List.mem_cons_of_mem a hs0, hps0, hfs0⟩

/-- The public-link route either leaves the table unchanged or appends
    the one view-level public share it builds. -/
theorem generate_public_link_cases (shares : List ScanShare) (now : Time)
    (cu : User) (scan : Scan) (days : Nat) (token : String) (nid : Nat) :
    generate_public_link shares now cu scan days token nid = shares
    ∨ generate_public_link shares now cu scan days token nid
      = shares ++ [{ id := nid, scan_id := scan.id
                     shared_with_user_id := none
                     permission_level := "view"
                     share_token := some token
                     created_by := cu.id, created_at := now
                     expires_at := some (now + days * 86400) }] := by
  simp only [generate_public_link]
  by_cases h1 :
      (!(check_scan_access shares now (some cu) scan "edit").fst) = true
  · rw [if_pos h1]; exact Or.inl rfl
  · rw [if_neg h1]
    by_cases h2 : (!(decide (1 ≤ days) && decide (days ≤ 365))) = true
    · rw [if_pos h2]; exact Or.inl rfl
    · rw [if_neg h2]
      cases hf : shares.find? (fun s =>
          s.scan_id = scan.id && s.shared_with_user_id = none) with
      | none => exact Or.inr rfl
      | some ex =>
        dsimp only
        by_cases hex : ex.is_expired now = true
        · rw [if_neg (by simp [hex])]
          exact Or.inr rfl
        · rw [if_pos (by simp [bool_false_of_not_true hex])]
          exact Or.inl rfl

/-- The user-share route leaves the table unchanged, updates the first
    matching row in place, or appends a row shared with the named user. -/
theorem share_with_user_cases (shares : List ScanShare) (now : Time)
    (cu : User) (scan : Scan) (tuid : Nat) (level : String) (days : Nat)
    (nid : Nat) :
    share_with_user shares now cu scan tuid level days nid = shares
    ∨ share_with_user shares now cu scan tuid level days nid
      = update_first_share
          (fun s => s.scan_id = scan.id && s.shared_with_user_id = some tuid)
          (fun s => { s with
            permission_level := level
            expires_at := if days > 0 then some (now + days * 86400) else none })
          shares
    ∨ share_with_user shares now cu scan tuid level days nid
      = shares ++ [{ id := nid, scan_id := scan.id
                     shared_with_user_id := some tuid
                     permission_level := level
                     share_token := none
                     created_by := cu.id, created_at := now
                     expires_at := if days > 0 then some (now + days * 86400)
                                   else none }] := by
  simp only [share_with_user]
  by_cases h1 :
      (!(check_scan_access shares now (some cu) scan "edit").fst) = true
  · rw [if_pos h1]; exact Or.inl rfl
  · rw [if_neg h1]
    by_cases h2 : (!(decide (days ≤ 365)
        && (decide (level = "view") || decide (level = "edit")))) = true
    · rw [if_pos h2]; exact Or.inl rfl
    · rw [if_neg h2]
      cases hf : shares.find? (fun s =>
          s.scan_id = scan.id && s.shared_with_user_id = some tuid) with
      | none => exact Or.inr (Or.inr rfl)
      | some ex => exact Or.inr (Or.inl rfl)

/-- **C6.** Every public share row reachable through the sharing
    operations carries permission level `view`: the public-link route
    hard-codes `view` at creation (its form has no permission input), and
    the user-share route never creates or updates a public row, so the
    invariant "all public grants are view-level" is preserved by both.
    Enforcement is at creation time: no read-path downgrade is involved. -/
theorem C6_public_shares_view_only
    (shares : List ScanShare) (now : Time) (cu : User) (scan : Scan)
    (tuid : Nat) (level : String) (sdays pdays : Nat)
    (nid1 nid2 : Nat) (token : String)
    (hinv : ∀ s ∈ shares, s.is_public = true → s.permission_level = "view") :
    (∀ s ∈ generate_public_link shares now cu scan pdays token nid1,
        s.is_public = true → s.permission_level = "view")
    ∧ (∀ s ∈ share_with_user shares now cu scan tuid level sdays nid2,
        s.is_public = true → s.permission_level = "view") := by
  constructor
  · intro s hs hpub
    rcases generate_public_link_cases shares now cu scan pdays token nid1 with
      h | h
    · exact hinv s (h ▸ hs) hpub
    · rw [h] at hs
      rcases List.mem_append.mp hs with h2 | h2
      · exact hinv s h2 hpub
      · simp only [List.mem_singleton] at h2
        subst h2
        rfl
  · intro s hs hpub
    rcases share_with_user_cases shares now cu scan tuid level sdays nid2 with
      h | h | h
    · exact hinv s (h ▸ hs) hpub
    · rw [h] at hs
      rcases mem_update_first_share hs with h2 | ⟨s0, hs0, hps0, hfs0⟩
      · exact hinv s h2 hpub
      · exfalso
        simp only [Bool.and_eq_true, decide_eq_true_eq] at hps0
        rw [hfs0] at hpub
        simp only [ScanShare.is_public] at hpub
        rw [show ({ s0 with
            permission_level := level
            expires_at := if sdays > 0 then some (now + sdays * 86400)
                          else none } : ScanShare).shared_with_user_id
          = s0.shared_with_user_id from rfl, hps0.2] at hpub
        simp at hpub
    · rw [h] at hs
      rcases List.mem_append.mp hs with h2 | h2
      · exact hinv s h2 hpub
      · exfalso
        simp only [List.mem_singleton] at h2
        subst h2
        simp [ScanShare.is_public] at hpub

/-- Witness for C6 starting from an empty share table. -/
theorem C6_witness :
    (∀ s ∈ generate_public_link [] 1000 alice scanA 7 "tokC" 3,
        s.is_public = true → s.permission_level = "view")
    ∧ (∀ s ∈ share_with_user [] 1000 alice scanA 2 "edit" 7 4,
        s.is_public = true → s.permission_level = "view") :=
  C6_public_shares_view_only [] 1000 alice scanA 2 "edit" 7 7 3 4 "tokC"
    (by intro s hs; simp at hs)

/-! ## C10 — public links always expire; duplicate-link refusal -/

/-- A public share of `scanA` that expired at time 500. -/
def expiredPub : ScanShare := {
  id := 1
  scan_id := 7
  shared_with_user_id := none
  permission_level := "view"
  share_token := some "tokA"
  created_by := 1
  created_at := 100
  expires_at := some 500 }

/-- A later public share of `scanA` that is still live at time 1000. -/
def livePub : ScanShare := {
  id := 2
  scan_id := 7
  shared_with_user_id := none
  permission_level := "view"
  share_token := some "tokB"
  created_by := 1
  created_at := 600
  expires_at := some 999999 }

/-- **C10 (counterexample).** The claim also says creation is refused
    while a non-expired public link for the same scan exists. The route
    checks only the *first* public share row
    (`filter_by(shared_with_user_id=None).first()`): with an expired
    public row older (lower id) than a live one, the check inspects the
    expired row and creation proceeds even though the non-expired link
    `livePub` exists. -/
theorem C10_counterexample :
    livePub ∈ [expiredPub, livePub]
    ∧ livePub.is_public = true
    ∧ livePub.is_expired 1000 = false
    ∧ generate_public_link [expiredPub, livePub] 1000 alice scanA 7 "tokC" 3
      = [expiredPub, livePub]
        ++ [{ id := 3, scan_id := 7, shared_with_user_id := none
              permission_level := "view", share_token := some "tokC"
              created_by := 1, created_at := 1000
              expires_at := some (1000 + 7 * 86400) }] := by
  decide

/-- **C10 (amended).** Every public link created by the route has a
    non-null expiration equal to the creation time plus the requested
    days (form-validated into 1..365); and creation is refused exactly
    when the *first* public grant row for the scan is non-expired — in
    particular, when the scan has at most one public grant row, creation
    is refused if and only if a non-expired public link exists. -/
theorem C10_public_link_expiry
    (shares : List ScanShare) (now : Time) (cu : User) (scan : Scan)
    (days : Nat) (token : String) (nid : Nat)
    (hdays : 1 ≤ days ∧ days ≤ 365)
    (haccess : (check_scan_access shares now (some cu) scan "edit").fst = true)
    (honepub : ∀ s1 ∈ shares, ∀ s2 ∈ shares,
      s1.scan_id = scan.id → s1.is_public = true →
      s2.scan_id = scan.id → s2.is_public = true → s1 = s2) :
    ((∀ s ∈ shares, s.scan_id = scan.id → s.is_public = true →
        s.is_expired now = true) →
      generate_public_link shares now cu scan days token nid
        = shares ++ [{ id := nid, scan_id := scan.id
                       shared_with_user_id := none
                       permission_level := "view"
                       share_token := some token
                       created_by := cu.id, created_at := now
                       expires_at := some (now + days * 86400) }])
    ∧ (∀ s ∈ shares, s.scan_id = scan.id → s.is_public = true →
        s.is_expired now = false →
        generate_public_link shares now cu scan days token nid = shares) := by
  have hgate :
      ¬ ((!(check_scan_access shares now (some cu) scan "edit").fst) = true) := by
    simp [haccess]
  have hdaysb : ¬ ((!(decide (1 ≤ days) && decide (days ≤ 365))) = true) := by
    simp [hdays.1, hdays.2]
  constructor
  · intro hall
    simp only [generate_public_link, if_neg hgate, if_neg hdaysb]
    cases hf : shares.find? (fun s =>
        s.scan_id = scan.id && s.shared_with_user_id = none) with
    | none => rfl
    | some ex =>
      dsimp only
      have hmem := List.mem_of_find?_eq_some hf
      have hpred := List.find?_some hf
      simp only [Bool.and_eq_true, decide_eq_true_eq] at hpred
      have hexp : ex.is_expired now = true :=
        hall ex hmem hpred.1 (by simp [ScanShare.is_public, hpred.2])
      rw [if_neg (by simp [hexp])]
  · intro s hs hsid hspub hslive
    simp only [generate_public_link, if_neg hgate, if_neg hdaysb]
    cases hf : shares.find? (fun s =>
        s.scan_id = scan.id && s.shared_with_user_id = none) with
    | none =>
      exfalso
      have := List.find?_eq_none.mp hf s hs
      simp only [Bool.and_eq_true, decide_eq_true_eq] at this
      exact this ⟨hsid, by simpa [ScanShare.is_public] using hspub⟩
    | some ex =>
      dsimp only
      have hmem := List.mem_of_find?_eq_some hf
      have hpred := List.find?_some hf
      simp only [Bool.and_eq_true, decide_eq_true_eq] at hpred
      have hex_eq : ex = s :=
        honepub ex hmem s hs hpred.1
          (by simp [ScanShare.is_public, hpred.2]) hsid hspub
      rw [hex_eq]
      simp [hslive]

/-- Witness for the amended C10: creation from an empty table appends the
    expiring view-level public share. -/
theorem C10_witness :
    ((∀ s ∈ ([] : List ScanShare), s.scan_id = scanA.id →
        s.is_public = true → s.is_expired 1000 = true) →
      generate_public_link [] 1000 alice scanA 7 "tokC" 3
        = [] ++ [{ id := 3, scan_id := scanA.id
                   shared_with_user_id := none
                   permission_level := "view"
                   share_token := some "tokC"
                   created_by := alice.id, created_at := 1000
                   expires_at := some (1000 + 7 * 86400) }])
    ∧ (∀ s ∈ ([] : List ScanShare), s.scan_id = scanA.id →
        s.is_public = true → s.is_expired 1000 = false →
        generate_public_link [] 1000 alice scanA 7 "tokC" 3 = []) :=
  C10_public_link_expiry [] 1000 alice scanA 7 "tokC" 3
    (by decide) (by decide) (by intro s1 hs1; simp at hs1)

/-! ## C9 — at most one system-default profile -/

/-- Number of profiles holding the system-default flag. -/
def defaults_count (l : List ScanConfigProfile) : Nat :=
  (l.filter (·.is_system_default)).length

theorem defaults_count_append (l1 l2 : List ScanConfigProfile) :
    defaults_count (l1 ++ l2) = defaults_count l1 + defaults_count l2 := by
  simp [defaults_count, List.filter_append]

/-- After the bulk clear of `create_profile`, no profile is flagged. -/
theorem clear_all_unflagged (l : List ScanConfigProfile) :
    ∀ p ∈ l.map (fun p =>
      if p.is_system_default then { p with is_system_default := false } else p),
      p.is_system_default = false := by
  intro p hp
  rcases List.mem_map.mp hp with ⟨q, _, hq⟩
  by_cases hf : q.is_system_default = true
  · rw [if_pos hf] at hq
    rw [← hq]
  · rw [if_neg hf] at hq
    rw [← hq]
    exact bool_false_of_not_true hf

theorem defaults_count_eq_zero (l : List ScanConfigProfile)
    (h : ∀ p ∈ l, p.is_system_default = false) : defaults_count l = 0 := by
  unfold defaults_count
  rw [List.length_eq_zero]
  rw [List.filter_eq_nil_iff]
  intro p hp
  simp [h p hp]

/-- If all flagged profiles share the id `pid` and the ids are distinct,
    at most one profile is flagged. -/
theorem defaults_count_le_one_of_same_id (l : List ScanConfigProfile)
    (pid : Nat) (hids : (l.map (·.id)).Nodup)
    (hall : ∀ p ∈ l, p.is_system_default = true → p.id = pid) :
    defaults_count l ≤ 1 := by
  induction l with
  | nil => simp [defaults_count]
  | cons a t ih =>
    rw [List.map_cons, List.nodup_cons] at hids
    by_cases ha : a.is_system_default = true
    · have haid : a.id = pid := hall a (List.mem_cons_self a t) ha
      have htail : defaults_count t = 0 := by
        apply defaults_count_eq_zero
        intro q hq
        by_cases hqf : q.is_system_default = true
        · exfalso
          have hqid : q.id = pid :=
            hall q (List.mem_cons_of_mem a hq) hqf
          exact hids.1 (by
            rw [haid, ← hqid]
            exact List.mem_map_of_mem (·.id) hq)
        · exact bool_false_of_not_true hqf
      have : defaults_count (a :: t) = 1 + defaults_count t := by
        simp [defaults_count, List.filter_cons, ha, Nat.add_comm]
      omega
    · have : defaults_count (a :: t) = defaults_count t := by
        simp [defaults_count, List.filter_cons, ha]
      rw [this]
      exact ih hids.2 (fun p hp => hall p (List.mem_cons_of_mem a hp))

theorem defaults_count_cons (x : ScanConfigProfile)
    (t : List ScanConfigProfile) :
    defaults_count (x :: t)
      = (if x.is_system_default then 1 else 0) + defaults_count t := by
  by_cases hx : x.is_system_default = true <;>
    simp [defaults_count, List.filter_cons, hx, Nat.add_comm]

/-- Two distinct flagged profiles force at least two flagged rows. -/
theorem two_le_defaults_count (l : List ScanConfigProfile)
    (a b : ScanConfigProfile) (ha : a ∈ l) (hb : b ∈ l) (hne : a ≠ b)
    (hfa : a.is_system_default = true) (hfb : b.is_system_default = true) :
    2 ≤ defaults_count l := by
  induction l with
  | nil => simp at ha
  | cons x t ih =>
    rw [defaults_count_cons]
    rcases List.mem_cons.mp ha with hax | hat
    · subst hax
      have hbt : b ∈ t := by
        rcases List.mem_cons.mp hb with hbx | hbt
        · exact absurd hbx.symm hne
        · exact hbt
      have h2 : 1 ≤ defaults_count t :=
        List.length_pos_of_mem (List.mem_filter.mpr ⟨hbt, by simp [hfb]⟩)
      rw [if_pos hfa]
      omega
    · rcases List.mem_cons.mp hb with hbx | hbt
      · subst hbx
        have h2 : 1 ≤ defaults_count t :=
          List.length_pos_of_mem (List.mem_filter.mpr ⟨hat, by simp [hfa]⟩)
        rw [if_pos hfb]
        omega
      · have h4 := ih hat hbt
        by_cases hx : x.is_system_default = true <;> simp [hx] <;> omega

/-- The ids of a mapped table when the map preserves the id column. -/
theorem map_ids_eq (l : List ScanConfigProfile)
    (g : ScanConfigProfile → ScanConfigProfile)
    (hg : ∀ p, (g p).id = p.id) :
    (l.map g).map (·.id) = l.map (·.id) := by
  induction l with
  | nil => rfl
  | cons a t ih => simp [hg, ih]

/-- A map that never introduces the flag cannot increase the count. -/
theorem defaults_count_map_le (l : List ScanConfigProfile)
    (g : ScanConfigProfile → ScanConfigProfile)
    (hg : ∀ p, (g p).is_system_default = true → p.is_system_default = true) :
    defaults_count (l.map g) ≤ defaults_count l := by
  induction l with
  | nil => simp [defaults_count]
  | cons a t ih =>
    rw [List.map_cons, defaults_count_cons, defaults_count_cons]
    by_cases hga : (g a).is_system_default = true
    · rw [if_pos hga, if_pos (hg a hga)]
      omega
    · rw [if_neg hga]
      by_cases ha : a.is_system_default = true <;> simp [ha] <;> omega

/-- **C9.** Starting from a table with distinct ids and at most one
    system-default profile, both `create_profile` and `edit_profile`
    preserve "at most one default", and whenever either operation sets
    the flag the operation leaves the target profile as the only flagged
    row — the previous holder is cleared in the same operation. -/
theorem C9_single_system_default
    (profiles : List ScanConfigProfile) (yaml_ok : Bool)
    (new_id pid : Nat) (n1 d1 y1 n2 d2 y2 : String) (uid : Nat)
    (a1 df1 a2 df2 : Bool)
    (hids : (profiles.map (·.id)).Nodup)
    (hinv : defaults_count profiles ≤ 1) :
    defaults_count
        (create_profile profiles yaml_ok new_id n1 d1 y1 uid a1 df1) ≤ 1
    ∧ defaults_count (edit_profile profiles yaml_ok pid n2 d2 y2 a2 df2) ≤ 1
    ∧ (yaml_ok = true → df1 = true →
        ∀ p ∈ create_profile profiles yaml_ok new_id n1 d1 y1 uid a1 df1,
          p.is_system_default = true → p.id = new_id)
    ∧ (yaml_ok = true → df2 = true → (∃ q ∈ profiles, q.id = pid) →
        ∀ p ∈ edit_profile profiles yaml_ok pid n2 d2 y2 a2 df2,
          p.is_system_default = true → p.id = pid) := by
  -- facts shared by the edit branches
  have hedit_flag :
      ∀ (l : List ScanConfigProfile),
        (∀ q ∈ l, q.is_system_default = true → q.id = pid) →
        ∀ p ∈ l.map (fun p =>
          if p.id = pid then
            { p with
              name := n2, description := d2, config_yaml := y2
              allow_standard_users := a2, is_system_default := df2 }
          else p),
          p.is_system_default = true → p.id = pid := by
    intro l hl p hp hpf
    rcases List.mem_map.mp hp with ⟨q, hq, hqp⟩
    by_cases hqid : q.id = pid
    · rw [if_pos hqid] at hqp
      rw [← hqp]
      exact hqid
    · rw [if_neg hqid] at hqp
      subst hqp
      exact hl q hq hpf
  have hclear_others :
      ∀ q ∈ profiles.map (fun p =>
        if p.id ≠ pid && p.is_system_default then
          { p with is_system_default := false }
        else p),
        q.is_system_default = true → q.id = pid := by
    intro q hq hqf
    rcases List.mem_map.mp hq with ⟨r, _, hrq⟩
    by_cases hcond : (decide (r.id ≠ pid) && r.is_system_default) = true
    · rw [if_pos hcond] at hrq
      rw [← hrq] at hqf
      simp at hqf
    · rw [if_neg hcond] at hrq
      subst hrq
      simp only [Bool.and_eq_true, decide_eq_true_eq, not_and] at hcond
      by_cases hrid : r.id = pid
      · exact hrid
      · exact absurd hqf (by simpa using hcond hrid)
  refine ⟨?_, ?_, ?_, ?_⟩
  · -- create preserves the invariant
    by_cases hy : yaml_ok = true
    · simp only [create_profile, hy, Bool.not_true, Bool.false_eq_true,
        if_false]
      have hsingle : ∀ x : ScanConfigProfile,
          defaults_count [x] = if x.is_system_default then 1 else 0 := by
        intro x
        by_cases hx : x.is_system_default = true <;>
          simp [defaults_count, List.filter_cons, hx]
      by_cases hdf : df1 = true
      · rw [if_pos hdf, defaults_count_append,
          defaults_count_eq_zero _ (clear_all_unflagged profiles),
          hsingle]
        simp [hdf]
      · rw [if_neg hdf, defaults_count_append, hsingle]
        have hdf2 : df1 = false := by
          cases df1
          · rfl
          · exact absurd rfl hdf
        simp only [hdf2, Bool.false_eq_true, if_false]
        omega
    · have hy2 : yaml_ok = false := by
        cases yaml_ok
        · rfl
        · exact absurd rfl hy
      simp [create_profile, hy2]
      exact hinv
  · -- edit preserves the invariant
    cases hfind : profiles.find? (fun p => p.id = pid) with
    | none => simp only [edit_profile, hfind]; exact hinv
    | some prof =>
      have hprofmem := List.mem_of_find?_eq_some hfind
      have hprofid : prof.id = pid := by
        have := List.find?_some hfind
        simpa using this
      simp only [edit_profile, hfind]
      by_cases hy : yaml_ok = true
      · simp only [hy, Bool.not_true, Bool.false_eq_true, if_false]
        by_cases hpf : prof.is_system_default = true
        · have hcond :
              ¬ ((df2 && !prof.is_system_default) = true) := by
            simp [hpf]
          rw [if_neg hcond]
          by_cases hdf : df2 = true
          · -- profile already the unique default, flag kept set
            apply defaults_count_le_one_of_same_id _ pid
            · rw [map_ids_eq]
              · exact hids
              · intro p
                by_cases hpid : p.id = pid <;> simp [hpid]
            · apply hedit_flag
              intro q hq hqf
              by_cases hqid : q.id = pid
              · exact hqid
              · exfalso
                have hqe : q ≠ prof := by
                  intro h
                  rw [h] at hqid
                  exact hqid hprofid
                have := two_le_defaults_count profiles q prof hq hprofmem
                  hqe hqf hpf
                omega
          · -- flag cleared on the target, nothing else flagged anew
            apply le_trans (defaults_count_map_le _ _ ?_) hinv
            intro p hp
            by_cases hpid : p.id = pid
            · rw [if_pos hpid] at hp
              simp only at hp
              exact absurd hp (by simp [bool_false_of_not_true hdf])
            · rwa [if_neg hpid] at hp
        · by_cases hdf : df2 = true
          · have hcond : (df2 && !prof.is_system_default) = true := by
              simp [hdf, bool_false_of_not_true hpf]
            rw [if_pos hcond]
            apply defaults_count_le_one_of_same_id _ pid
            · rw [map_ids_eq, map_ids_eq]
              · exact hids
              · intro p
                by_cases h : (decide (p.id ≠ pid) && p.is_system_default) = true
                · rw [if_pos h]
                · rw [if_neg h]
              · intro p
                by_cases h : p.id = pid <;> simp [h]
            · exact hedit_flag _ hclear_others
          · have hcond : ¬ ((df2 && !prof.is_system_default) = true) := by
              simp [bool_false_of_not_true hdf]
            rw [if_neg hcond]
            apply le_trans (defaults_count_map_le _ _ ?_) hinv
            intro p hp
            by_cases hpid : p.id = pid
            · rw [if_pos hpid] at hp
              simp only at hp
              exact absurd hp (by simp [bool_false_of_not_true hdf])
            · rwa [if_neg hpid] at hp
      · have hy2 : yaml_ok = false := by
          cases yaml_ok
          · rfl
          · exact absurd rfl hy
        simp only [hy2, Bool.not_false, if_true]
        exact hinv
  · -- create: setting the flag leaves the new profile the only holder
    intro hy hdf p hp hpf
    simp only [create_profile, hy, Bool.not_true, Bool.false_eq_true,
      if_false, if_pos hdf] at hp
    rcases List.mem_append.mp hp with h | h
    · exact absurd hpf (by simp [clear_all_unflagged profiles p h])
    · rcases List.mem_singleton.mp h with rfl
      rfl
  · -- edit: setting the flag leaves the target the only holder
    intro hy hdf hex p hp hpf
    cases hfind : profiles.find? (fun p => p.id = pid) with
    | none =>
      exfalso
      rcases hex with ⟨q, hq, hqid⟩
      have := List.find?_eq_none.mp hfind q hq
      simp [hqid] at this
    | some prof =>
      have hprofmem := List.mem_of_find?_eq_some hfind
      have hprofid : prof.id = pid := by
        have := List.find?_some hfind
        simpa using this
      simp only [edit_profile, hfind, hy, Bool.not_true, Bool.false_eq_true,
        if_false] at hp
      by_cases hpf2 : prof.is_system_default = true
      · rw [if_neg (by simp [hpf2])] at hp
        refine hedit_flag profiles ?_ p hp hpf
        intro q hq hqf
        by_cases hqid : q.id = pid
        · exact hqid
        · exfalso
          have hqe : q ≠ prof := by
            intro h
            rw [h] at hqid
            exact hqid hprofid
          have := two_le_defaults_count profiles q prof hq hprofmem
            hqe hqf hpf2
          omega
      · rw [if_pos (by
          simp [hdf, bool_false_of_not_true hpf2])] at hp
        exact hedit_flag _ hclear_others p hp hpf

/-- Witness for C9: a table holding one default profile, edited and
    extended with a new default. -/
theorem C9_witness :
    defaults_count
        (create_profile [{ profileStd with is_system_default := true }]
          true 9 "n" "d" "y" 1 false true) ≤ 1
    ∧ defaults_count (edit_profile [{ profileStd with is_system_default := true }]
        true 3 "n" "d" "y" false true) ≤ 1
    ∧ (true = true → true = true →
        ∀ p ∈ create_profile [{ profileStd with is_system_default := true }]
          true 9 "n" "d" "y" 1 false true,
          p.is_system_default = true → p.id = 9)
    ∧ (true = true → true = true →
        (∃ q ∈ [{ profileStd with is_system_default := true }], q.id = 3) →
        ∀ p ∈ edit_profile [{ profileStd with is_system_default := true }]
          true 3 "n" "d" "y" false true,
          p.is_system_default = true → p.id = 3) :=
  C9_single_system_default [{ profileStd with is_system_default := true }]
    true 9 3 "n" "d" "y" "n" "d" "y" 1 false true false true
    (by decide) (by decide)

/-! ## C7 — parser idempotence

Lemmas about the upsert loop, generic in the per-file row computation
`rowf` and in the in-place update `upd`, so that they cover both copies
of `parse_scan_results` (tasks.py and utils.py). -/

/-- The keys (scan, plugin) a parser pass writes. -/
def parsed_keys (rowf : PFile → Option ScanResult) (files : List PFile) :
    List (Nat × String) :=
  (files.filter (fun f => str_ends_with f.name "_processed.json")).filterMap
    (fun f => (rowf f).map rkey)

/-- One step of the latest-writer accumulator for a key. -/
def last_step (rowf : PFile → Option ScanResult) (k : Nat × String)
    (acc : Option ScanResult) (f : PFile) : Option ScanResult :=
  match rowf f with
  | some n => if rkey n = k then some n else acc
  | none => acc

/-- Latest-writer fold from an arbitrary start. -/
def last_parsed_from (rowf : PFile → Option ScanResult) (k : Nat × String)
    (init : Option ScanResult) (fs : List PFile) : Option ScanResult :=
  fs.foldl (last_step rowf k) init

/-- The row values of the last processed file writing the key `k` — what
    "the latest file content" denotes for that unit. -/
def last_parsed (rowf : PFile → Option ScanResult) (files : List PFile)
    (k : Nat × String) : Option ScanResult :=
  last_parsed_from rowf k none
    (files.filter (fun f => str_ends_with f.name "_processed.json"))

/-- The parser loop over an already-filtered file list. -/
def parser_steps (rowf : PFile → Option ScanResult)
    (upd : ScanResult → ScanResult → ScanResult)
    (db : List ScanResult) (fs : List PFile) : List ScanResult :=
  fs.foldl (fun acc f =>
    match rowf f with
    | some n => upsert upd acc n
    | none => acc) db

theorem parser_fold_eq_steps (rowf : PFile → Option ScanResult)
    (upd : ScanResult → ScanResult → ScanResult)
    (db : List ScanResult) (files : List PFile) :
    parser_fold rowf upd db files
      = parser_steps rowf upd db
          (files.filter (fun f => str_ends_with f.name "_processed.json")) :=
  rfl

theorem first_row_nil (k : Nat × String) :
    first_row [] k = none := rfl

theorem first_row_cons (a : ScanResult) (l : List ScanResult)
    (k : Nat × String) :
    first_row (a :: l) k
      = if rkey a = k then some a else first_row l k := by
  by_cases h : rkey a = k
  · rw [if_pos h]
    apply List.find?_cons_of_pos
    obtain ⟨h1, h2⟩ : a.scan_id = k.1 ∧ a.plugin_name = k.2 := by
      cases k
      simpa [rkey, Prod.ext_iff] using h
    simp [h1, h2]
  · rw [if_neg h]
    apply List.find?_cons_of_neg
    intro hc
    apply h
    cases k
    simp only [Bool.and_eq_true, decide_eq_true_eq] at hc
    simp [rkey, Prod.ext_iff, hc.1, hc.2]

theorem key_count_nil (k : Nat × String) : key_count [] k = 0 := rfl

theorem key_count_cons (a : ScanResult) (l : List ScanResult)
    (k : Nat × String) :
    key_count (a :: l) k
      = (if rkey a = k then 1 else 0) + key_count l k := by
  by_cases h : rkey a = k
  · rw [if_pos h]
    simp [key_count, List.filter_cons, h, Nat.add_comm]
  · rw [if_neg h]
    simp [key_count, List.filter_cons, h]

theorem update_first_result_cons
    (upd : ScanResult → ScanResult → ScanResult)
    (n a : ScanResult) (l : List ScanResult) :
    update_first_result upd n (a :: l)
      = if rkey a = rkey n then upd a n :: l
        else a :: update_first_result upd n l := by
  by_cases h : rkey a = rkey n
  · rw [if_pos h]
    obtain ⟨h1, h2⟩ : a.scan_id = n.scan_id ∧ a.plugin_name = n.plugin_name := by
      simpa [rkey, Prod.ext_iff] using h
    rw [update_first_result, if_pos (by simp [h1, h2])]
  · rw [if_neg h]
    rw [update_first_result, if_neg (by
      intro hc
      apply h
      simp only [Bool.and_eq_true, decide_eq_true_eq] at hc
      simp [rkey, Prod.ext_iff, hc.1, hc.2])]

theorem key_count_zero_iff (db : List ScanResult) (k : Nat × String) :
    key_count db k = 0 ↔ first_row db k = none := by
  induction db with
  | nil => simp [key_count, first_row]
  | cons a l ih =>
    rw [key_count_cons, first_row_cons]
    by_cases h : rkey a = k
    · simp [h]
    · simp [h, ih]

theorem key_count_pos_of_first_row_some (db : List ScanResult)
    (k : Nat × String) (r : ScanResult) (h : first_row db k = some r) :
    1 ≤ key_count db k := by
  by_cases hz : key_count db k = 0
  · rw [(key_count_zero_iff db k).mp hz] at h
    cases h
  · omega

theorem upsert_find_eq (upd : ScanResult → ScanResult → ScanResult)
    (db : List ScanResult) (n : ScanResult) :
    upsert upd db n
      = match first_row db (rkey n) with
        | some _ => update_first_result upd n db
        | none => db ++ [n] := rfl

theorem update_first_result_length
    (upd : ScanResult → ScanResult → ScanResult)
    (n : ScanResult) (db : List ScanResult) :
    (update_first_result upd n db).length = db.length := by
  induction db with
  | nil => rfl
  | cons a l ih =>
    rw [update_first_result_cons]
    by_cases h : rkey a = rkey n
    · rw [if_pos h]; simp
    · rw [if_neg h]; simp [ih]

theorem update_first_result_first_self
    (upd : ScanResult → ScanResult → ScanResult)
    (hkey : ∀ r n, rkey (upd r n) = rkey r)
    (n : ScanResult) (db : List ScanResult) (r : ScanResult)
    (h : first_row db (rkey n) = some r) :
    first_row (update_first_result upd n db) (rkey n) = some (upd r n) := by
  induction db with
  | nil => cases h
  | cons a l ih =>
    rw [first_row_cons] at h
    rw [update_first_result_cons]
    by_cases ha : rkey a = rkey n
    · rw [if_pos ha] at h ⊢
      injection h with h2
      subst h2
      rw [first_row_cons, if_pos (by rw [hkey]; exact ha)]
    · rw [if_neg ha] at h ⊢
      rw [first_row_cons, if_neg ha]
      exact ih h

theorem update_first_result_first_other
    (upd : ScanResult → ScanResult → ScanResult)
    (hkey : ∀ r n, rkey (upd r n) = rkey r)
    (n : ScanResult) (db : List ScanResult) (k : Nat × String)
    (hk : ¬ k = rkey n) :
    first_row (update_first_result upd n db) k = first_row db k := by
  induction db with
  | nil => rfl
  | cons a l ih =>
    rw [update_first_result_cons]
    by_cases ha : rkey a = rkey n
    · rw [if_pos ha, first_row_cons, first_row_cons, hkey]
      have hak : ¬ rkey a = k := by
        rw [ha]
        exact fun hh => hk hh.symm
      rw [if_neg hak, if_neg hak]
    · rw [if_neg ha, first_row_cons, first_row_cons, ih]

theorem update_first_result_count
    (upd : ScanResult → ScanResult → ScanResult)
    (hkey : ∀ r n, rkey (upd r n) = rkey r)
    (n : ScanResult) (db : List ScanResult) (k : Nat × String) :
    key_count (update_first_result upd n db) k = key_count db k := by
  induction db with
  | nil => rfl
  | cons a l ih =>
    rw [update_first_result_cons]
    by_cases ha : rkey a = rkey n
    · rw [if_pos ha, key_count_cons, key_count_cons, hkey]
    · rw [if_neg ha, key_count_cons, key_count_cons, ih]

theorem first_row_append_single (db : List ScanResult) (n : ScanResult)
    (k : Nat × String) :
    first_row (db ++ [n]) k
      = match first_row db k with
        | some r => some r
        | none => if rkey n = k then some n else none := by
  induction db with
  | nil =>
    rw [List.nil_append, first_row_cons]
    rfl
  | cons a l ih =>
    rw [List.cons_append, first_row_cons, first_row_cons]
    by_cases ha : rkey a = k
    · rw [if_pos ha, if_pos ha]
    · rw [if_neg ha, if_neg ha, ih]

theorem key_count_append_single (db : List ScanResult) (n : ScanResult)
    (k : Nat × String) :
    key_count (db ++ [n]) k
      = key_count db k + (if rkey n = k then 1 else 0) := by
  by_cases h : rkey n = k <;>
    simp [key_count, List.filter_append, List.filter_cons, h]

theorem upsert_count_le (upd : ScanResult → ScanResult → ScanResult)
    (hkey : ∀ r n, rkey (upd r n) = rkey r)
    (db : List ScanResult) (n : ScanResult)
    (hdb : ∀ k, key_count db k ≤ 1) :
    ∀ k, key_count (upsert upd db n) k ≤ 1 := by
  intro k
  rw [upsert_find_eq]
  cases hf : first_row db (rkey n) with
  | some r =>
    dsimp only
    rw [update_first_result_count upd hkey]
    exact hdb k
  | none =>
    dsimp only
    rw [key_count_append_single]
    by_cases h : rkey n = k
    · rw [if_pos h]
      have h0 : key_count db k = 0 := by
        rw [← h]
        exact (key_count_zero_iff db (rkey n)).mpr hf
      omega
    · rw [if_neg h]
      have := hdb k
      omega

theorem upsert_first_self (upd : ScanResult → ScanResult → ScanResult)
    (hkey : ∀ r n, rkey (upd r n) = rkey r)
    (db : List ScanResult) (n : ScanResult) :
    first_row (upsert upd db n) (rkey n)
      = some (match first_row db (rkey n) with
              | some r => upd r n
              | none => n) := by
  rw [upsert_find_eq]
  cases hf : first_row db (rkey n) with
  | some r =>
    dsimp only
    exact update_first_result_first_self upd hkey n db r hf
  | none =>
    dsimp only
    rw [first_row_append_single, hf]
    simp

theorem upsert_first_other (upd : ScanResult → ScanResult → ScanResult)
    (hkey : ∀ r n, rkey (upd r n) = rkey r)
    (db : List ScanResult) (n : ScanResult) (k : Nat × String)
    (hk : ¬ k = rkey n) :
    first_row (upsert upd db n) k = first_row db k := by
  rw [upsert_find_eq]
  cases hf : first_row db (rkey n) with
  | some r =>
    dsimp only
    exact update_first_result_first_other upd hkey n db k hk
  | none =>
    dsimp only
    rw [first_row_append_single]
    cases hg : first_row db k with
    | none =>
      dsimp only
      rw [if_neg (fun hh => hk hh.symm)]
    | some r => rfl

theorem upsert_length_present (upd : ScanResult → ScanResult → ScanResult)
    (db : List ScanResult) (n : ScanResult)
    (h : ¬ first_row db (rkey n) = none) :
    (upsert upd db n).length = db.length := by
  rw [upsert_find_eq]
  cases hf : first_row db (rkey n) with
  | none => exact absurd hf h
  | some r =>
    dsimp only
    exact update_first_result_length upd n db

theorem upsert_presence_mono (upd : ScanResult → ScanResult → ScanResult)
    (hkey : ∀ r n, rkey (upd r n) = rkey r)
    (db : List ScanResult) (n : ScanResult) (k : Nat × String)
    (h : ¬ first_row db k = none) :
    ¬ first_row (upsert upd db n) k = none := by
  by_cases hk : k = rkey n
  · subst hk
    rw [upsert_first_self upd hkey]
    simp
  · rw [upsert_first_other upd hkey db n k hk]
    exact h

theorem parser_steps_nil (rowf : PFile → Option ScanResult)
    (upd : ScanResult → ScanResult → ScanResult) (db : List ScanResult) :
    parser_steps rowf upd db [] = db := rfl

theorem parser_steps_cons (rowf : PFile → Option ScanResult)
    (upd : ScanResult → ScanResult → ScanResult)
    (db : List ScanResult) (f : PFile) (fs : List PFile) :
    parser_steps rowf upd db (f :: fs)
      = parser_steps rowf upd
          (match rowf f with
           | some n => upsert upd db n
           | none => db) fs := rfl

theorem parser_steps_count_le (rowf : PFile → Option ScanResult)
    (upd : ScanResult → ScanResult → ScanResult)
    (hkey : ∀ r n, rkey (upd r n) = rkey r) :
    ∀ (fs : List PFile) (db : List ScanResult),
      (∀ k, key_count db k ≤ 1) →
      ∀ k, key_count (parser_steps rowf upd db fs) k ≤ 1 := by
  intro fs
  induction fs with
  | nil => intro db hdb k; exact hdb k
  | cons f fs ih =>
    intro db hdb k
    rw [parser_steps_cons]
    cases hr : rowf f with
    | none => exact ih db hdb k
    | some n => exact ih _ (upsert_count_le upd hkey db n hdb) k

theorem last_parsed_from_init (rowf : PFile → Option ScanResult)
    (k : Nat × String) :
    ∀ (fs : List PFile) (init : Option ScanResult),
      last_parsed_from rowf k init fs
        = match last_parsed_from rowf k none fs with
          | some m => some m
          | none => init := by
  intro fs
  induction fs with
  | nil => intro init; rfl
  | cons f fs ih =>
    intro init
    show last_parsed_from rowf k (last_step rowf k init f) fs = _
    rw [ih (last_step rowf k init f)]
    conv_rhs =>
      rw [show last_parsed_from rowf k none (f :: fs)
            = last_parsed_from rowf k (last_step rowf k none f) fs from rfl,
          ih (last_step rowf k none f)]
    cases hm : last_parsed_from rowf k none fs with
    | some m => rfl
    | none =>
      dsimp only
      unfold last_step
      cases hr : rowf f with
      | none => rfl
      | some n =>
        dsimp only
        by_cases hn : rkey n = k
        · rw [if_pos hn, if_pos hn]
        · rw [if_neg hn, if_neg hn]

theorem last_parsed_from_spec (rowf : PFile → Option ScanResult)
    (k : Nat × String) :
    ∀ (fs : List PFile) (init : Option ScanResult) (m : ScanResult),
      (∀ m0, init = some m0 → (∃ f, rowf f = some m0) ∧ rkey m0 = k) →
      last_parsed_from rowf k init fs = some m →
      (∃ f, rowf f = some m) ∧ rkey m = k := by
  intro fs
  induction fs with
  | nil =>
    intro init m hinit h
    exact hinit m h
  | cons f fs ih =>
    intro init m hinit h
    refine ih (last_step rowf k init f) m ?_ h
    intro m0 h0
    unfold last_step at h0
    cases hr : rowf f with
    | none =>
      rw [hr] at h0
      exact hinit m0 h0
    | some n =>
      rw [hr] at h0
      dsimp only at h0
      by_cases hn : rkey n = k
      · rw [if_pos hn] at h0
        injection h0 with h1
        subst h1
        exact ⟨⟨f, hr⟩, hn⟩
      · rw [if_neg hn] at h0
        exact hinit m0 h0

/-- Characterization of a parser pass: the first row for a key `k` after
    the pass is the last file's values for `k` — applied as an in-place
    update of the pre-existing row when there was one, or as the inserted
    row otherwise — and rows for unwritten keys are untouched. -/
theorem parser_steps_first_row (rowf : PFile → Option ScanResult)
    (upd : ScanResult → ScanResult → ScanResult)
    (hkey : ∀ r n, rkey (upd r n) = rkey r)
    (hcoll : ∀ r n m, upd (upd r n) m = upd r m)
    (hnn : ∀ n m, (∃ f, rowf f = some n) → (∃ f, rowf f = some m) →
      rkey n = rkey m → upd n m = m) :
    ∀ (fs : List PFile) (db : List ScanResult) (k : Nat × String),
      first_row (parser_steps rowf upd db fs) k
        = match last_parsed_from rowf k none fs with
          | some m => some (match first_row db k with
                            | some r => upd r m
                            | none => m)
          | none => first_row db k := by
  intro fs
  induction fs with
  | nil => intro db k; rfl
  | cons f fs ih =>
    intro db k
    rw [parser_steps_cons]
    cases hr : rowf f with
    | none =>
      dsimp only
      rw [ih db k]
      have hlast : last_parsed_from rowf k none (f :: fs)
          = last_parsed_from rowf k none fs := by
        show last_parsed_from rowf k (last_step rowf k none f) fs = _
        unfold last_step
        rw [hr]
      rw [hlast]
    | some n =>
      dsimp only
      by_cases hn : rkey n = k
      · subst hn
        rw [ih (upsert upd db n) (rkey n)]
        have hlast : last_parsed_from rowf (rkey n) none (f :: fs)
            = match last_parsed_from rowf (rkey n) none fs with
              | some m => some m
              | none => some n := by
          show last_parsed_from rowf (rkey n)
            (last_step rowf (rkey n) none f) fs = _
          rw [last_parsed_from_init rowf (rkey n) fs
            (last_step rowf (rkey n) none f)]
          unfold last_step
          rw [hr]
          dsimp only
          rw [if_pos rfl]
        rw [hlast, upsert_first_self upd hkey db n]
        cases hm : last_parsed_from rowf (rkey n) none fs with
        | none => rfl
        | some m =>
          dsimp only
          have hm_spec := last_parsed_from_spec rowf (rkey n) fs none m
            (by intro m0 h0; cases h0) hm
          cases hg : first_row db (rkey n) with
          | some r =>
            dsimp only
            rw [hcoll]
          | none =>
            dsimp only
            rw [hnn n m ⟨f, hr⟩ hm_spec.1 hm_spec.2.symm]
      · rw [ih (upsert upd db n) k]
        have hlast2 : last_parsed_from rowf k none (f :: fs)
            = last_parsed_from rowf k none fs := by
          show last_parsed_from rowf k (last_step rowf k none f) fs = _
          unfold last_step
          rw [hr]
          dsimp only
          rw [if_neg hn]
        rw [hlast2, upsert_first_other upd hkey db n k (fun hh => hn hh.symm)]

theorem parser_steps_length (rowf : PFile → Option ScanResult)
    (upd : ScanResult → ScanResult → ScanResult)
    (hkey : ∀ r n, rkey (upd r n) = rkey r) :
    ∀ (fs : List PFile) (db : List ScanResult),
      (∀ f ∈ fs, ∀ n, rowf f = some n → ¬ first_row db (rkey n) = none) →
      (parser_steps rowf upd db fs).length = db.length := by
  intro fs
  induction fs with
  | nil => intro db _; rfl
  | cons f fs ih =>
    intro db hpres
    rw [parser_steps_cons]
    cases hr : rowf f with
    | none =>
      dsimp only
      exact ih db (fun g hg n hgn => hpres g (List.mem_cons_of_mem f hg) n hgn)
    | some n =>
      dsimp only
      have h1 : ¬ first_row db (rkey n) = none :=
        hpres f (List.mem_cons_self f fs) n hr
      refine (ih (upsert upd db n) ?_).trans
        (upsert_length_present upd db n h1)
      intro g hg n2 hgn2
      exact upsert_presence_mono upd hkey db n (rkey n2)
        (hpres g (List.mem_cons_of_mem f hg) n2 hgn2)

theorem last_parsed_from_of_mem (rowf : PFile → Option ScanResult) :
    ∀ (fs : List PFile) (k : Nat × String),
      k ∈ fs.filterMap (fun f => (rowf f).map rkey) →
      ¬ last_parsed_from rowf k none fs = none := by
  intro fs
  induction fs with
  | nil => intro k hk; simp at hk
  | cons f fs ih =>
    intro k hk
    rw [List.filterMap_cons] at hk
    show ¬ last_parsed_from rowf k (last_step rowf k none f) fs = none
    cases hr : rowf f with
    | none =>
      rw [hr] at hk
      simp only [Option.map] at hk
      have hstep : last_step rowf k none f = none := by
        unfold last_step
        rw [hr]
      rw [hstep]
      exact ih k hk
    | some n =>
      rw [hr] at hk
      simp only [Option.map] at hk
      rw [last_parsed_from_init]
      cases hm : last_parsed_from rowf k none fs with
      | some m => simp
      | none =>
        dsimp only
        rcases List.mem_cons.mp hk with hk1 | hk2
        · have hstep : last_step rowf k none f = some n := by
            unfold last_step
            rw [hr]
            dsimp only
            rw [if_pos hk1.symm]
          rw [hstep]
          simp
        · exact absurd hm (ih k hk2)

/-- The five facts of one parser copy over an already-filtered file list:
    after two passes over the same directory no key has more than one
    row, every parsed key has exactly one, the second pass inserts
    nothing, it leaves every key's row unchanged, and the row of each
    parsed key holds the values of the last file that wrote it, applied
    as an in-place update of the pre-existing row when there was one. -/
theorem parser_pass_props (rowf : PFile → Option ScanResult)
    (upd : ScanResult → ScanResult → ScanResult)
    (hkey : ∀ r n, rkey (upd r n) = rkey r)
    (hcoll : ∀ r n m, upd (upd r n) m = upd r m)
    (hnn : ∀ n m, (∃ f, rowf f = some n) → (∃ f, rowf f = some m) →
      rkey n = rkey m → upd n m = m)
    (db0 : List ScanResult) (fs : List PFile)
    (hdb0 : ∀ k, key_count db0 k ≤ 1) :
    (∀ k, key_count
        (parser_steps rowf upd (parser_steps rowf upd db0 fs) fs) k ≤ 1)
    ∧ (∀ k ∈ fs.filterMap (fun f => (rowf f).map rkey),
        key_count
          (parser_steps rowf upd (parser_steps rowf upd db0 fs) fs) k = 1)
    ∧ (parser_steps rowf upd (parser_steps rowf upd db0 fs) fs).length
        = (parser_steps rowf upd db0 fs).length
    ∧ (∀ k, first_row
          (parser_steps rowf upd (parser_steps rowf upd db0 fs) fs) k
        = first_row (parser_steps rowf upd db0 fs) k)
    ∧ (∀ k n, last_parsed_from rowf k none fs = some n →
        first_row (parser_steps rowf upd db0 fs) k
          = some (match first_row db0 k with
                  | some r => upd r n
                  | none => n)) := by
  have h1 : ∀ k, key_count (parser_steps rowf upd db0 fs) k ≤ 1 :=
    parser_steps_count_le rowf upd hkey fs db0 hdb0
  have hCHAR := parser_steps_first_row rowf upd hkey hcoll hnn fs
  refine ⟨?_, ?_, ?_, ?_, ?_⟩
  · exact parser_steps_count_le rowf upd hkey fs _ h1
  · intro k hk
    have hlp := last_parsed_from_of_mem rowf fs k hk
    have hle := parser_steps_count_le rowf upd hkey fs _ h1 k
    have hpos : 1 ≤ key_count
        (parser_steps rowf upd (parser_steps rowf upd db0 fs) fs) k := by
      cases hm : last_parsed_from rowf k none fs with
      | none => exact absurd hm hlp
      | some m =>
        have hc := hCHAR (parser_steps rowf upd db0 fs) k
        rw [hm] at hc
        dsimp only at hc
        exact key_count_pos_of_first_row_some _ k _ hc
    omega
  · apply parser_steps_length rowf upd hkey fs
    intro f hf n hn
    have hkmem : rkey n ∈ fs.filterMap (fun g => (rowf g).map rkey) :=
      List.mem_filterMap.mpr ⟨f, hf, by rw [hn]; rfl⟩
    have hlp := last_parsed_from_of_mem rowf fs (rkey n) hkmem
    cases hm : last_parsed_from rowf (rkey n) none fs with
    | none => exact absurd hm hlp
    | some m =>
      have hc := hCHAR db0 (rkey n)
      rw [hm] at hc
      dsimp only at hc
      rw [hc]
      simp
  · intro k
    have hc2 := hCHAR (parser_steps rowf upd db0 fs) k
    have hc1 := hCHAR db0 k
    cases hm : last_parsed_from rowf k none fs with
    | none =>
      rw [hm] at hc2
      exact hc2
    | some m =>
      rw [hm] at hc1 hc2
      dsimp only at hc1 hc2
      rw [hc2, hc1]
      have hm_spec := last_parsed_from_spec rowf k fs none m
        (by intro m0 h0; cases h0) hm
      cases hg : first_row db0 k with
      | some r =>
        dsimp only
        rw [hcoll]
      | none =>
        dsimp only
        rw [hnn m m hm_spec.1 hm_spec.1 rfl]
  · intro k n hn
    have hc1 := hCHAR db0 k
    rw [hn] at hc1
    exact hc1

theorem tasks_update_key (r n : ScanResult) :
    rkey (tasks_update r n) = rkey r := rfl

theorem utils_update_key (r n : ScanResult) :
    rkey (utils_update r n) = rkey r := rfl

theorem tasks_update_coll (r n m : ScanResult) :
    tasks_update (tasks_update r n) m = tasks_update r m := rfl

theorem utils_update_coll (r n m : ScanResult) :
    utils_update (utils_update r n) m = utils_update r m := rfl

/-- Rows produced by the tasks.py parser never set the raw path. -/
theorem row_of_file_raw (sid : Nat) (f : PFile) (n : ScanResult)
    (h : row_of_file sid f = some n) : n.raw_output_path = none := by
  simp only [row_of_file] at h
  repeat split at h
  all_goals
    first
    | exact Option.noConfusion h
    | (injection h with h2
       subst h2
       rfl)

/-- Rows produced by the utils.py parser never set the raw path and
    never set an error message. -/
theorem utils_row_of_file_raw (sid : Nat) (f : PFile) (n : ScanResult)
    (h : utils_row_of_file sid f = some n) :
    n.raw_output_path = none ∧ n.error_message = none := by
  simp only [utils_row_of_file] at h
  repeat split at h
  all_goals
    first
    | exact Option.noConfusion h
    | (injection h with h2
       subst h2
       exact ⟨rfl, rfl⟩)

theorem tasks_hnn (sid : Nat) :
    ∀ n m : ScanResult, (∃ f, row_of_file sid f = some n) →
      (∃ f, row_of_file sid f = some m) → rkey n = rkey m →
      tasks_update n m = m := by
  rintro n m ⟨f1, h1⟩ ⟨f2, h2⟩ hk
  have hr1 := row_of_file_raw sid f1 n h1
  have hr2 := row_of_file_raw sid f2 m h2
  obtain ⟨hk1, hk2⟩ : n.scan_id = m.scan_id ∧ n.plugin_name = m.plugin_name := by
    simpa [rkey, Prod.ext_iff] using hk
  cases n
  cases m
  simp only [tasks_update]
  simp_all

theorem utils_hnn (sid : Nat) :
    ∀ n m : ScanResult, (∃ f, utils_row_of_file sid f = some n) →
      (∃ f, utils_row_of_file sid f = some m) → rkey n = rkey m →
      utils_update n m = m := by
  rintro n m ⟨f1, h1⟩ ⟨f2, h2⟩ hk
  have hr1 := utils_row_of_file_raw sid f1 n h1
  have hr2 := utils_row_of_file_raw sid f2 m h2
  obtain ⟨hk1, hk2⟩ : n.scan_id = m.scan_id ∧ n.plugin_name = m.plugin_name := by
    simpa [rkey, Prod.ext_iff] using hk
  cases n
  cases m
  simp only [utils_update]
  simp_all

/-- **C7.** Running either copy of the Result Parser twice over the same
    directory snapshot, starting from a table with at most one row per
    (scan, unit) key, leaves exactly one Subjob Result row per parsed
    (scan, unit name): after the second pass no key has more than one
    row, every parsed unit has exactly one, the second pass inserts no
    row and leaves every key's row exactly as the first pass left it, and
    the row of each parsed unit carries the values computed from the
    latest file content, applied as an in-place update of any
    pre-existing row. -/
theorem C7_parser_idempotent (sid : Nat) (db0 : List ScanResult)
    (files : List PFile)
    (hdb0 : ∀ k, key_count db0 k ≤ 1) :
    (∀ k, key_count
        (parse_scan_results sid (parse_scan_results sid db0 files) files)
        k ≤ 1)
    ∧ (∀ k ∈ parsed_keys (row_of_file sid) files,
        key_count
          (parse_scan_results sid (parse_scan_results sid db0 files) files)
          k = 1)
    ∧ (parse_scan_results sid (parse_scan_results sid db0 files) files).length
        = (parse_scan_results sid db0 files).length
    ∧ (∀ k, first_row
          (parse_scan_results sid (parse_scan_results sid db0 files) files) k
        = first_row (parse_scan_results sid db0 files) k)
    ∧ (∀ k n, last_parsed (row_of_file sid) files k = some n →
        first_row (parse_scan_results sid db0 files) k
          = some (match first_row db0 k with
                  | some r => tasks_update r n
                  | none => n))
    ∧ (∀ k, key_count
        (utils_parse_scan_results sid
          (utils_parse_scan_results sid db0 files) files) k ≤ 1)
    ∧ (∀ k ∈ parsed_keys (utils_row_of_file sid) files,
        key_count (utils_parse_scan_results sid
          (utils_parse_scan_results sid db0 files) files) k = 1)
    ∧ (utils_parse_scan_results sid
        (utils_parse_scan_results sid db0 files) files).length
        = (utils_parse_scan_results sid db0 files).length
    ∧ (∀ k, first_row (utils_parse_scan_results sid
          (utils_parse_scan_results sid db0 files) files) k
        = first_row (utils_parse_scan_results sid db0 files) k)
    ∧ (∀ k n, last_parsed (utils_row_of_file sid) files k = some n →
        first_row (utils_parse_scan_results sid db0 files) k
          = some (match first_row db0 k with
                  | some r => utils_update r n
                  | none => n)) := by
  have ht := parser_pass_props (row_of_file sid) tasks_update
    (tasks_update_key) (tasks_update_coll) (tasks_hnn sid) db0
    (files.filter (fun f => str_ends_with f.name "_processed.json")) hdb0
  have hu := parser_pass_props (utils_row_of_file sid) utils_update
    (utils_update_key) (utils_update_coll) (utils_hnn sid) db0
    (files.filter (fun f => str_ends_with f.name "_processed.json")) hdb0
  exact ⟨ht.1, ht.2.1, ht.2.2.1, ht.2.2.2.1, ht.2.2.2.2,
    hu.1, hu.2.1, hu.2.2.1, hu.2.2.2.1, hu.2.2.2.2⟩

/-- A processed artifact file as the parser reads it. -/
def pfileA : PFile := {
  name := "unit_a_processed.json"
  mtime := 50
  data := some (JVal.obj [
    ("plugin_name", JVal.str "unit_a")
    , ("disposition", JVal.str "success")
    , ("findings", JVal.obj [("results", JVal.arr [])])]) }

/-- Witness for C7: both parser copies run twice over a directory holding
    one processed artifact, starting from an empty results table. -/
theorem C7_witness :
    (∀ k, key_count
        (parse_scan_results 7 (parse_scan_results 7 [] [pfileA]) [pfileA])
        k ≤ 1)
    ∧ (∀ k ∈ parsed_keys (row_of_file 7) [pfileA],
        key_count
          (parse_scan_results 7 (parse_scan_results 7 [] [pfileA]) [pfileA])
          k = 1)
    ∧ (parse_scan_results 7 (parse_scan_results 7 [] [pfileA]) [pfileA]).length
        = (parse_scan_results 7 [] [pfileA]).length
    ∧ (∀ k, first_row
          (parse_scan_results 7 (parse_scan_results 7 [] [pfileA]) [pfileA]) k
        = first_row (parse_scan_results 7 [] [pfileA]) k)
    ∧ (∀ k n, last_parsed (row_of_file 7) [pfileA] k = some n →
        first_row (parse_scan_results 7 [] [pfileA]) k
          = some (match first_row ([] : List ScanResult) k with
                  | some r => tasks_update r n
                  | none => n))
    ∧ (∀ k, key_count
        (utils_parse_scan_results 7
          (utils_parse_scan_results 7 [] [pfileA]) [pfileA]) k ≤ 1)
    ∧ (∀ k ∈ parsed_keys (utils_row_of_file 7) [pfileA],
        key_count (utils_parse_scan_results 7
          (utils_parse_scan_results 7 [] [pfileA]) [pfileA]) k = 1)
    ∧ (utils_parse_scan_results 7
        (utils_parse_scan_results 7 [] [pfileA]) [pfileA]).length
        = (utils_parse_scan_results 7 [] [pfileA]).length
    ∧ (∀ k, first_row (utils_parse_scan_results 7
          (utils_parse_scan_results 7 [] [pfileA]) [pfileA]) k
        = first_row (utils_parse_scan_results 7 [] [pfileA]) k)
    ∧ (∀ k n, last_parsed (utils_row_of_file 7) [pfileA] k = some n →
        first_row (utils_parse_scan_results 7 [] [pfileA]) k
          = some (match first_row ([] : List ScanResult) k with
                  | some r => utils_update r n
                  | none => n)) :=
  C7_parser_idempotent 7 [] [pfileA] (by intro k; simp [key_count])

end KastWeb
